import Mathlib

/-!
Verification of the DMS batch ETL / KPI engine.

Shallow embedding of `kpi/engine.py` (restricted expression evaluator,
dependency resolver, rollup aggregation, KPI calculation orchestration) and
`etl/pipelines.py` (operations/KPI row cleansing, batch orchestration).
Numbers are modelled as rationals (`ℚ`); SQLite tables become association
lists; collaborator contracts that live outside the sources
(`normalize_factory_code`, `normalize_employee_id`, `get_or_create_period`)
are modelled from the spec as explicit parameters or spec-modelled functions.
-/

namespace DMS

/-! ## Expression language (engine.py: `ast` fragment visible to the engine)

The engine parses a formula with `ast.parse`, walks the tree rejecting any
node type outside `_ALLOWED_AST_NODES`, compiles, and evaluates with
`eval(code_obj, {}, context)`.  `PyExpr` embeds the Python expression AST
restricted to the node shapes the engine can meet: the allowed arithmetic
core plus representative disallowed constructs (attribute access,
subscripting, comprehensions) that `_ALLOWED_AST_NODES` filters out. -/

/-- Unary operators `ast.UAdd`, `ast.USub`. -/
inductive UOp where
  | uadd
  | usub
deriving DecidableEq, Repr

/-- Binary operators `ast.Add/Sub/Mult/Div/Mod/Pow/FloorDiv`. -/
inductive BOp where
  | add
  | sub
  | mult
  | div
  | mod
  | pow
  | floordiv
deriving DecidableEq, Repr

mutual
/-- Python expression AST as seen by `_evaluate_metric`.  `const` covers
`ast.Constant`/`ast.Num`; `attribute`, `subscript` and `listComp` stand for
the construct families outside `_ALLOWED_AST_NODES` (payloads simplified to
the sub-expressions relevant to name collection). -/
inductive PyExpr where
  | const : ℚ → PyExpr
  | name : String → PyExpr
  | unaryOp : UOp → PyExpr → PyExpr
  | binOp : BOp → PyExpr → PyExpr → PyExpr
  | call : PyExpr → PyArgs → PyExpr
  | attribute : PyExpr → String → PyExpr
  | subscript : PyExpr → PyExpr → PyExpr
  | listComp : PyExpr → PyExpr → PyExpr
deriving DecidableEq, Repr

/-- Argument list of an `ast.Call`. -/
inductive PyArgs where
  | nil : PyArgs
  | cons : PyExpr → PyArgs → PyArgs
deriving DecidableEq, Repr
end

mutual
/-- Models the `ast.walk` filter of `_evaluate_metric`: `true` iff every node
of the tree is an instance of a type in `_ALLOWED_AST_NODES`. -/
def astAllowed : PyExpr → Bool
  | .const _ => true
  | .name _ => true
  | .unaryOp _ e => astAllowed e
  | .binOp _ a b => astAllowed a && astAllowed b
  | .call f args => astAllowed f && argsAllowed args
  | .attribute _ _ => false
  | .subscript _ _ => false
  | .listComp _ _ => false

/-- `astAllowed` over an argument list. -/
def argsAllowed : PyArgs → Bool
  | .nil => true
  | .cons e es => astAllowed e && argsAllowed es
end

mutual
/-- Models `{node.id for node in ast.walk(tree) if isinstance(node, ast.Name)}`
(as a list with possible repeats; membership is what matters). -/
def exprNames : PyExpr → List String
  | .const _ => []
  | .name s => [s]
  | .unaryOp _ e => exprNames e
  | .binOp _ a b => exprNames a ++ exprNames b
  | .call f args => exprNames f ++ argsNames args
  | .attribute e _ => exprNames e
  | .subscript e i => exprNames e ++ exprNames i
  | .listComp a b => exprNames a ++ exprNames b

/-- `exprNames` over an argument list. -/
def argsNames : PyArgs → List String
  | .nil => []
  | .cons e es => exprNames e ++ argsNames es
end

/-- Python exception kinds the engine's evaluation can raise (all are caught
by `_evaluate_metric`; `syntaxError` escapes `_dependencies_ready`).
`unmodeled` stands for faults of constructs this embedding leaves abstract
(non-integer exponents, evaluation of disallowed node families). -/
inductive PyErr where
  | nameError
  | typeError
  | zeroDivisionError
  | valueError
  | syntaxError
  | unmodeled
deriving DecidableEq, Repr

/-- Runtime values of the evaluation namespace: context numbers, plus
builtin-namespace functions.  `eval(code_obj, {}, context)` runs with empty
globals, into which CPython injects the `builtins` module, so bare names can
resolve to builtin callables; `abs` models that namespace representatively. -/
inductive PyVal where
  | num : ℚ → PyVal
  | builtin : String → PyVal
deriving DecidableEq, Repr

/-- Names of the modelled Python builtins visible to `eval`. -/
def builtinNames : List String := ["abs"]

/-- Variable context: metric evaluation context / base fact dictionary. -/
abbrev Ctx := List (String × ℚ)

/-- Dictionary lookup (`context.get(name)` / `name in context`). -/
def lookupCtx : Ctx → String → Option ℚ
  | [], _ => none
  | (k, v) :: rest, s => if k = s then some v else lookupCtx rest s

/-- Dictionary assignment `context[key] = value`: replaces an existing
binding in place, otherwise appends (CPython dict update semantics as far as
lookups can observe). -/
def setCtx : Ctx → String → ℚ → Ctx
  | [], k, v => [(k, v)]
  | (k', v') :: rest, k, v =>
      if k' = k then (k, v) :: rest else (k', v') :: setCtx rest k v

/-- Python `%` on numbers: `a % b = a - b*floor(a/b)`, `ZeroDivisionError`
when `b = 0`. -/
def pyMod (a b : ℚ) : Except PyErr ℚ :=
  if b = 0 then .error .zeroDivisionError else .ok (a - b * ⌊a / b⌋)

/-- Python `//` on numbers: `floor(a/b)`, `ZeroDivisionError` when `b = 0`. -/
def pyFloorDiv (a b : ℚ) : Except PyErr ℚ :=
  if b = 0 then .error .zeroDivisionError else .ok ((⌊a / b⌋ : ℤ) : ℚ)

/-- Python `**` restricted to integer exponents, where rational arithmetic is
exact: `0 ** negative` raises `ZeroDivisionError`; non-integer exponents
(irrational/complex results) are outside the rational value model and map to
`unmodeled`. -/
def pyPow (a b : ℚ) : Except PyErr ℚ :=
  if b.den = 1 then
    if a = 0 ∧ b.num < 0 then .error .zeroDivisionError
    else .ok (a ^ b.num)
  else .error .unmodeled

/-- Apply a binary arithmetic operator (`ZeroDivisionError` on `/ % //` by
zero, matching CPython numeric semantics on exactly representable inputs). -/
def applyBOp (op : BOp) (a b : ℚ) : Except PyErr ℚ :=
  match op with
  | .add => .ok (a + b)
  | .sub => .ok (a - b)
  | .mult => .ok (a * b)
  | .div => if b = 0 then .error .zeroDivisionError else .ok (a / b)
  | .mod => pyMod a b
  | .pow => pyPow a b
  | .floordiv => pyFloorDiv a b

/-- Apply a unary arithmetic operator. -/
def applyUOp (op : UOp) (a : ℚ) : ℚ :=
  match op with
  | .uadd => a
  | .usub => -a

/-- Call a value: the modelled builtin `abs` on one numeric argument returns
its absolute value; any other application raises `TypeError` (wrong arity,
calling a number, or an unmodelled builtin behaviour). -/
def applyCall : PyVal → List PyVal → Except PyErr PyVal
  | .builtin "abs", [.num q] => .ok (.num |q|)
  | .builtin _, _ => .error .typeError
  | .num _, _ => .error .typeError

mutual
/-- Models `eval(code_obj, {}, context)` on a compiled expression tree: names
resolve in the local context first, then in the builtin namespace, else
`NameError`; arithmetic faults raise.  Node families outside
`_ALLOWED_AST_NODES` never reach `eval` in the engine and are left
`unmodeled`. -/
def pyEval (context : Ctx) : PyExpr → Except PyErr PyVal
  | .const q => .ok (.num q)
  | .name s =>
      match lookupCtx context s with
      | some q => .ok (.num q)
      | none => if s ∈ builtinNames then .ok (.builtin s) else .error .nameError
  | .unaryOp op e => do
      match ← pyEval context e with
      | .num q => .ok (.num (applyUOp op q))
      | .builtin _ => .error .typeError
  | .binOp op a b => do
      match ← pyEval context a, ← pyEval context b with
      | .num qa, .num qb => (applyBOp op qa qb).map .num
      | _, _ => .error .typeError
  | .call f args => do
      let vf ← pyEval context f
      let vs ← pyEvalArgs context args
      applyCall vf vs
  | .attribute _ _ => .error .unmodeled
  | .subscript _ _ => .error .unmodeled
  | .listComp _ _ => .error .unmodeled

/-- Evaluate an argument list left to right, propagating the first fault. -/
def pyEvalArgs (context : Ctx) : PyArgs → Except PyErr (List PyVal)
  | .nil => .ok []
  | .cons e es => do
      let v ← pyEval context e
      let vs ← pyEvalArgs context es
      .ok (v :: vs)
end

/-- ASCII whitespace recognised by Python `str.strip()` (unicode whitespace
beyond ASCII is not modelled). -/
def isPySpace (c : Char) : Bool :=
  c = ' ' || c = '\t' || c = '\n' || c = '\x0d' || c = '\x0c' || c = '\x0b'

/-- Python `str.strip()` on a character list. -/
def stripChars (l : List Char) : List Char :=
  ((l.dropWhile isPySpace).reverse.dropWhile isPySpace).reverse

/-- Python `s.split("=", 1)`: `some (lhs, rhs)` split at the first `=`,
`none` when no `=` occurs (so `"=" in s` is `(splitEqChars s).isSome`). -/
def splitEqChars : List Char → Option (List Char × List Char)
  | [] => none
  | c :: rest =>
      if c = '=' then some ([], rest)
      else
        match splitEqChars rest with
        | none => none
        | some (l, r) => some (c :: l, r)

/-- Models `KpiEngine._normalize_expression`: strip an optional `name =`
prefix, evaluating only the right-hand side of the first `=`; in either case
the result is `strip()`ped. -/
def normalizeExpression (expression : String) : String :=
  match splitEqChars expression.data with
  | some (_, rhs) => ⟨stripChars rhs⟩
  | none => ⟨stripChars expression.data⟩

/-- A stored metric formula.  `raw` is the text held in the `formula` column;
`ast` models `ast.parse(_normalize_expression raw, mode="eval")`: `some e`
when the normalized text parses to the expression `e`, `none` when parsing
raises `SyntaxError`.  Parsing itself is outside the embedding; every
concrete formula in this file fixes both fields consistently with CPython. -/
structure PyFormula where
  raw : String
  ast : Option PyExpr
deriving DecidableEq, Repr

/-- `MetricDefinition` dataclass of `kpi/engine.py`. -/
structure MetricDefinition where
  metric_code : String
  scope : String
  formula : Option PyFormula := none
  aggregation : String := "sum"
  weight : Option ℚ := none
  target_source : Option String := none
deriving DecidableEq, Repr

/-- The engine's `function_map`: registered external functions, each taking
the full context and returning a scalar or raising (any exception). -/
abbrev FunctionMap := List (String × (Ctx → Except PyErr ℚ))

/-- `formula in function_map` / `function_map[formula]`. -/
def lookupFn : FunctionMap → String → Option (Ctx → Except PyErr ℚ)
  | [], _ => none
  | (k, f) :: rest, s => if k = s then some f else lookupFn rest s

/-- Models `KpiEngine._evaluate_metric`: formula-less metrics read their own
code from the context; a formula that is literally a `function_map` key calls
that function; otherwise the normalized text is parsed, filtered against
`_ALLOWED_AST_NODES`, evaluated, and converted with `float(...)`.  Every
fault in the guarded region is caught and turned into `None`. -/
def evaluateMetric (fm : FunctionMap) (metric : MetricDefinition)
    (context : Ctx) : Option ℚ :=
  match metric.formula with
  | none => lookupCtx context metric.metric_code
  | some f =>
    match lookupFn fm f.raw with
    | some fn =>
        match fn context with
        | .ok v => some v
        | .error _ => none
    | none =>
        match f.ast with
        | none => none
        | some tree =>
            if astAllowed tree then
              match pyEval context tree with
              | .ok (.num v) => some v
              | .ok (.builtin _) => none
              | .error _ => none
            else none

/-- Models `KpiEngine._dependencies_ready`: formula-less metrics are always
ready; otherwise the normalized formula is parsed (a parse failure raises
`SyntaxError`, uncaught there) and its name set checked against context keys
plus `function_map` keys. -/
def dependenciesReady (fm : FunctionMap) (metric : MetricDefinition)
    (context : Ctx) : Except PyErr Bool :=
  match metric.formula with
  | none => .ok true
  | some f =>
    match f.ast with
    | none => .error .syntaxError
    | some tree =>
        .ok ((exprNames tree).all fun n =>
          (lookupCtx context n).isSome || (lookupFn fm n).isSome)

/-! ## Dependency resolution (`KpiEngine._evaluate_metrics`) -/

/-- The `computed` dictionary: metric code → optional value, in insertion
order. -/
abbrev Computed := List (String × Option ℚ)

/-- `computed.get(code)` / `code in computed`. -/
def lookupComputed : Computed → String → Option (Option ℚ)
  | [], _ => none
  | (k, v) :: rest, s => if k = s then some v else lookupComputed rest s

/-- The resolver's running state: the `computed` map and the evaluation
`context` (base facts plus already-resolved non-null metrics). -/
structure ResolveState where
  computed : Computed
  context : Ctx
deriving DecidableEq

/-- One inner `for metric in metric_defs` sweep of `_evaluate_metrics`:
already-computed metrics are skipped; a metric whose evaluation yields a
value is recorded and added to the context; a metric that evaluates to
`None` is recorded (as `None`, context unchanged) only when its dependencies
are ready — `_dependencies_ready` may raise `SyntaxError`, which propagates.
The `Bool` is the pass's `progress` flag. -/
def passMetrics (fm : FunctionMap) :
    List MetricDefinition → ResolveState → Bool →
    Except PyErr (ResolveState × Bool)
  | [], st, progress => .ok (st, progress)
  | metric :: rest, st, progress =>
      if (lookupComputed st.computed metric.metric_code).isSome then
        passMetrics fm rest st progress
      else
        match evaluateMetric fm metric st.context with
        | some v =>
            passMetrics fm rest
              ⟨st.computed ++ [(metric.metric_code, some v)],
               setCtx st.context metric.metric_code v⟩ true
        | none => do
            let ready ← dependenciesReady fm metric st.context
            if ready then
              passMetrics fm rest
                ⟨st.computed ++ [(metric.metric_code, none)], st.context⟩ true
            else
              passMetrics fm rest st progress

/-- The outer `for _ in range(len(metric_defs) or 1)` loop: run passes while
fuel lasts, stopping early after a pass with no progress. -/
def resolveLoop (fm : FunctionMap) (metric_defs : List MetricDefinition) :
    Nat → ResolveState → Except PyErr ResolveState
  | 0, st => .ok st
  | fuel + 1, st => do
      let (st', progress) ← passMetrics fm metric_defs st false
      if progress then resolveLoop fm metric_defs fuel st' else .ok st'

/-- Models `KpiEngine._evaluate_metrics`: fixed-point resolution with at most
`max N 1` passes (`range(len(metric_defs) or 1)`), starting from a copy of
the base context and an empty `computed` map. -/
def evaluateMetrics (fm : FunctionMap) (metric_defs : List MetricDefinition)
    (base_context : Ctx) : Except PyErr Computed :=
  (resolveLoop fm metric_defs (max metric_defs.length 1)
    ⟨[], base_context⟩).map (·.computed)

/-- `k` full passes with no early stop — the reference against which the
loop's pass count is measured. -/
def runPasses (fm : FunctionMap) (metric_defs : List MetricDefinition) :
    Nat → ResolveState → Except PyErr ResolveState
  | 0, st => .ok st
  | k + 1, st => do
      let (st', _) ← passMetrics fm metric_defs st false
      runPasses fm metric_defs k st'


/-! ## Rollups (`KpiEngine._rollup_results`, `_aggregate_values`,
`_resolve_rollup_period`) and the calculation orchestrator. -/

/-- One `dim_period` row: (month, quarter, year). -/
structure PeriodInfo where
  month : Int
  quarter : Int
  year : Int
deriving DecidableEq, Repr

/-- `dim_period` keyed by `period_key` — both the engine's pre-loaded
`period_index` snapshot and the live table `get_or_create_period` works on. -/
abbrev PeriodTable := List (Int × PeriodInfo)

/-- `period_index.get(period_key)`. -/
def lookupPeriod : PeriodTable → Int → Option PeriodInfo
  | [], _ => none
  | (k, p) :: rest, key => if k = key then some p else lookupPeriod rest key

/-- First period key carrying the given (month, year), if any. -/
def findPeriodKey : PeriodTable → Int → Int → Option Int
  | [], _, _ => none
  | (k, p) :: rest, month, year =>
      if p.month = month ∧ p.year = year then some k
      else findPeriodKey rest month year

/-- Greatest period key in the table (0 when empty), for fresh surrogates. -/
def maxPeriodKey : PeriodTable → Int
  | [] => 0
  | (k, _) :: rest => max k (maxPeriodKey rest)

/-- Modelled from the spec: `getOrCreatePeriod(month, year) -> periodKey`,
the idempotent get-or-create period service (`get_or_create_period` of
`warehouse_schema.py`, whose body is not under `src/`).  Returns the
existing key for (month, year), or inserts a fresh row with
`quarter = ceil(month/3)` (spec §3 PeriodKey) under a fresh surrogate key. -/
def getOrCreatePeriod (tbl : PeriodTable) (month year : Int) :
    Int × PeriodTable :=
  match findPeriodKey tbl month year with
  | some k => (k, tbl)
  | none =>
      let k := maxPeriodKey tbl + 1
      (k, tbl ++ [(k, ⟨month, (month + 2) / 3, year⟩)])

/-- Models `KpiEngine._resolve_rollup_period`: quarter rollups live under the
synthetic period `month = (quarter or 1) * 3`, year rollups under
`month = 12`, both via the get-or-create service (which may grow the live
period table). -/
def resolveRollupPeriod (tbl : PeriodTable) (year : Int)
    (quarter : Option Int) (level : String) : Int × PeriodTable :=
  if level = "quarter" then
    let q := match quarter with
      | none => 1
      | some q => if q = 0 then 1 else q
    getOrCreatePeriod tbl (q * 3) year
  else getOrCreatePeriod tbl 12 year

/-- One calculation result row (the dictionaries `calculate` accumulates and
`_write_results` inserts into `fact_kpi_calc`, minus the constant
`batch_id`). -/
structure ResultRow where
  scope : String
  scope_id : Int
  period_key : Int
  metric_code : String
  value : Option ℚ
  target : Option ℚ
  weight : Option ℚ
deriving DecidableEq, Repr

/-- Rollup grouping key `(scope_id, metric_code, year, quarter|None)`. -/
structure RollupKey where
  scope_id : Int
  metric_code : String
  year : Int
  quarter : Option Int
deriving DecidableEq, Repr

/-- One grouped tuple `(month, value, target)`. -/
structure MonthEntry where
  month : Int
  value : Option ℚ
  target : Option ℚ
deriving DecidableEq, Repr

/-- The `grouped` dictionary in insertion order. -/
abbrev Groups := List (RollupKey × List MonthEntry)

/-- `grouped.get(key)`. -/
def lookupGroup : Groups → RollupKey → Option (List MonthEntry)
  | [], _ => none
  | (k, vs) :: rest, key => if k = key then some vs else lookupGroup rest key

/-- `grouped.setdefault(key, []).append(entry)`: append to an existing
group, else open a new group at the end. -/
def insertGroup : Groups → RollupKey → MonthEntry → Groups
  | [], key, entry => [(key, [entry])]
  | (k, vs) :: rest, key, entry =>
      if k = key then (k, vs ++ [entry]) :: rest
      else (k, vs) :: insertGroup rest key entry

/-- The grouping loop of `_rollup_results`: rows of another scope are
skipped, as are rows whose period key is absent from the pre-loaded period
index snapshot. -/
def buildGroups (pidx : PeriodTable) (scope level : String) :
    List ResultRow → Groups → Groups
  | [], g => g
  | row :: rest, g =>
      buildGroups pidx scope level rest <|
        if row.scope ≠ scope then g
        else
          match lookupPeriod pidx row.period_key with
          | none => g
          | some period =>
              insertGroup g
                ⟨row.scope_id, row.metric_code, period.year,
                 if level = "quarter" then some period.quarter else none⟩
                ⟨period.month, row.value, row.target⟩

/-- `{m.metric_code: m for m in metric_defs}.get(code)` — the last
definition with a given code wins, as in a dict comprehension. -/
def lookupMetricDef : List MetricDefinition → String → Option MetricDefinition
  | [], _ => none
  | m :: rest, code =>
      match lookupMetricDef rest code with
      | some m' => some m'
      | none => if m.metric_code = code then some m else none

/-- Python `str.lower()` restricted to ASCII letters (non-ASCII case
mapping is not modelled; all metric codes and method names here are ASCII). -/
def lowerChar (c : Char) : Char :=
  if 'A' ≤ c ∧ c ≤ 'Z' then Char.ofNat (c.toNat + 32) else c

/-- `str.lower()` on a whole string. -/
def lowerString (s : String) : String := ⟨s.data.map lowerChar⟩

/-- Python `max(values_with_month, key=lambda item: item[0])`: first entry
with the greatest month (strict `>` comparisons keep the earliest maximum). -/
def maxByMonth : MonthEntry → List MonthEntry → MonthEntry
  | best, [] => best
  | best, e :: rest => maxByMonth (if e.month > best.month then e else best) rest

/-- Models `KpiEngine._aggregate_values`.  `numeric_values` is the null-free
value list, `values_with_month` the full `(month, value, target)` group; note
that `latest` picks the maximum over `values_with_month`, nulls included.
The empty `values_with_month` branch of `latest` is unreachable from the
engine's call sites (there `numeric_values ⊆ values_with_month`); Python
would raise there and this model returns `none`. -/
def aggregateValues (numeric_values : List ℚ)
    (values_with_month : List MonthEntry) (method : String) : Option ℚ :=
  match numeric_values with
  | [] => none
  | v :: vs =>
      let m := lowerString (if method = "" then "sum" else method)
      if m = "avg" ∨ m = "mean" then
        some ((v :: vs).sum / (v :: vs).length)
      else if m = "max" then some (vs.foldl max v)
      else if m = "min" then some (vs.foldl min v)
      else if m = "latest" then
        match values_with_month with
        | [] => none
        | e :: rest => (maxByMonth e rest).value
      else some ((v :: vs).sum)

/-- The aggregation loop of `_rollup_results` over the grouped entries, in
insertion order, threading the live period table through
`_resolve_rollup_period`.  Codes missing from the metric map are skipped. -/
def rollupAgg (metric_defs : List MetricDefinition) (scope level : String) :
    Groups → PeriodTable → List ResultRow × PeriodTable
  | [], tbl => ([], tbl)
  | (key, values) :: rest, tbl =>
      match lookupMetricDef metric_defs key.metric_code with
      | none => rollupAgg metric_defs scope level rest tbl
      | some metric =>
          let pk := resolveRollupPeriod tbl key.year key.quarter level
          let more := rollupAgg metric_defs scope level rest pk.2
          (⟨scope, key.scope_id, pk.1, key.metric_code,
            aggregateValues (values.filterMap (·.value)) values
              metric.aggregation,
            aggregateValues (values.filterMap (·.target)) values
              metric.aggregation,
            metric.weight⟩ :: more.1, more.2)

/-- Models `KpiEngine._rollup_results` (plus the period-table effect of its
`_resolve_rollup_period` calls): levels other than quarter/year yield no
rows. -/
def rollupResults (monthly_results : List ResultRow)
    (metric_defs : List MetricDefinition) (pidx : PeriodTable)
    (scope level : String) (tbl : PeriodTable) :
    List ResultRow × PeriodTable :=
  if level = "quarter" ∨ level = "year" then
    rollupAgg metric_defs scope level
      (buildGroups pidx scope level monthly_results []) tbl
  else ([], tbl)

/-- One record of `_prepare_factory_records` / `_prepare_employee_records`:
a scope entity and period with its base fact context and target map. -/
structure ScopeRecord where
  scope_id : Int
  period_key : Int
  base : Ctx
  targets : Ctx
deriving DecidableEq

/-- The inner row-emitting loop of `_calculate_for_scope` for one record:
metrics absent from `computed` are skipped; targets are attached only when
`target_source == "fact_kpi"`. -/
def scopeRows (computed : Computed) (record : ScopeRecord) (scope : String) :
    List MetricDefinition → List ResultRow
  | [] => []
  | metric :: rest =>
      match lookupComputed computed metric.metric_code with
      | none => scopeRows computed record scope rest
      | some v =>
          ⟨scope, record.scope_id, record.period_key, metric.metric_code, v,
           (if metric.target_source = some "fact_kpi" then
              lookupCtx record.targets metric.metric_code
            else none),
           metric.weight⟩ :: scopeRows computed record scope rest

/-- Models `KpiEngine._calculate_for_scope`. -/
def calculateForScope (fm : FunctionMap) (records : List ScopeRecord)
    (metric_defs : List MetricDefinition) (scope : String) :
    Except PyErr (List ResultRow) :=
  match records with
  | [] => .ok []
  | record :: rest => do
      let computed ← evaluateMetrics fm metric_defs record.base
      let more ← calculateForScope fm rest metric_defs scope
      .ok (scopeRows computed record scope metric_defs ++ more)

/-- Models `KpiEngine.calculate` for one run, after the
`DELETE FROM fact_kpi_calc WHERE batch_id = ?`: the returned row list is
exactly the `fact_kpi_calc` content for that batch.  The period index is
snapshotted from the period table at entry, while rollup period resolution
works on (and may grow) the live table — faithfully to
`_load_period_index` happening before any `get_or_create_period` call.
Note each `_rollup_results` call receives the *accumulated* `results` list,
so later rollups see earlier rollup rows. -/
def calculateRun (fm : FunctionMap) (metrics : List MetricDefinition)
    (factory_records employee_records : List ScopeRecord)
    (ptable : PeriodTable) : Except PyErr (List ResultRow × PeriodTable) := do
  let period_index := ptable
  let factory_defs := metrics.filter (fun m => m.scope == "factory")
  let employee_defs := metrics.filter (fun m => m.scope == "employee")
  let fRows ← calculateForScope fm factory_records factory_defs "factory"
  let eRows ← calculateForScope fm employee_records employee_defs "employee"
  let results0 := fRows ++ eRows
  let (fq, t1) :=
    rollupResults results0 factory_defs period_index "factory" "quarter" ptable
  let r1 := results0 ++ fq
  let (fy, t2) :=
    rollupResults r1 factory_defs period_index "factory" "year" t1
  let r2 := r1 ++ fy
  let (eq_, t3) :=
    rollupResults r2 employee_defs period_index "employee" "quarter" t2
  let r3 := r2 ++ eq_
  let (ey, t4) :=
    rollupResults r3 employee_defs period_index "employee" "year" t3
  .ok (r3 ++ ey, t4)

/-- The contribution a monthly result row makes to the rollup group `key`
(the tuple `_rollup_results` appends when the row belongs to this scope, its
period key is in the index, and its grouping key is `key`). -/
def groupContribution (pidx : PeriodTable) (scope level : String)
    (key : RollupKey) (row : ResultRow) : Option MonthEntry :=
  if row.scope = scope then
    match lookupPeriod pidx row.period_key with
    | none => none
    | some p =>
        if (⟨row.scope_id, row.metric_code, p.year,
            if level = "quarter" then some p.quarter else none⟩ : RollupKey)
           = key then
          some ⟨p.month, row.value, row.target⟩
        else none
  else none

/-- Key list of a `grouped` dictionary. -/
def groupKeys (g : Groups) : List RollupKey := g.map Prod.fst

/-! ## Concrete scenarios exercising the rollup orchestration -/

/-- A single sum-aggregated factory metric, read straight off the base
`revenue` fact (no formula). -/
def sumRevenueDefs : List MetricDefinition :=
  [{ metric_code := "revenue", scope := "factory", aggregation := "sum" }]

/-- `dim_period` holding January–March 2024 (monthly operations data exists
for all three months, so the Q1 synthetic period `month = 3` pre-exists). -/
def q1PeriodTable : PeriodTable :=
  [(1, ⟨1, 1, 2024⟩), (2, ⟨2, 1, 2024⟩), (3, ⟨3, 1, 2024⟩)]

/-- Factory 1's aggregated operations rows for January–March 2024:
revenue 10, 20, 30. -/
def q1Records : List ScopeRecord :=
  [⟨1, 1, [("revenue", 10)], []⟩, ⟨1, 2, [("revenue", 20)], []⟩,
   ⟨1, 3, [("revenue", 30)], []⟩]

/-- `dim_period` holding only January–February 2024 (the Q1 synthetic period
`month = 3` does not yet exist). -/
def janFebPeriodTable : PeriodTable := [(1, ⟨1, 1, 2024⟩), (2, ⟨2, 1, 2024⟩)]

/-- Factory 1's aggregated operations rows for January–February 2024:
revenue 10, 20. -/
def janFebRecords : List ScopeRecord :=
  [⟨1, 1, [("revenue", 10)], []⟩, ⟨1, 2, [("revenue", 20)], []⟩]


/-- The `abs(1)` formula: `ast.parse("abs(1)", mode="eval")` yields a tree
made only of allowed node types (`Call`, `Name`, `Constant`, ...). -/
def absCallFormula : PyFormula :=
  ⟨"abs(1)", some (.call (.name "abs") (.cons (.const 1) .nil))⟩

/-- A metric computed by the `abs(1)` formula. -/
def absCallMetric : MetricDefinition :=
  { metric_code := "m1", scope := "factory", formula := some absCallFormula }

/-- The spec's `total = revenue - cost` formula, normalized and parsed. -/
def totalFormula : PyFormula :=
  ⟨"total = revenue - cost",
   some (.binOp .sub (.name "revenue") (.name "cost"))⟩

/-- A metric computed by `total = revenue - cost`. -/
def totalMetric : MetricDefinition :=
  { metric_code := "total", scope := "factory", formula := some totalFormula }

/-- The spec's `efficiency = output/hours` formula, normalized and parsed. -/
def efficiencyFormula : PyFormula :=
  ⟨"efficiency = output/hours",
   some (.binOp .div (.name "output") (.name "hours"))⟩

/-- A metric computed by `efficiency = output/hours`. -/
def efficiencyMetric : MetricDefinition :=
  { metric_code := "efficiency", scope := "factory",
    formula := some efficiencyFormula }

/-- Two mutually recursive metrics, `a = b + 1` and `b = a + 1`: a
dependency cycle no pass can break. -/
def cyclicDefs : List MetricDefinition :=
  [{ metric_code := "a", scope := "factory",
     formula := some ⟨"b + 1", some (.binOp .add (.name "b") (.const 1))⟩ },
   { metric_code := "b", scope := "factory",
     formula := some ⟨"a + 1", some (.binOp .add (.name "a") (.const 1))⟩ }]

/-! ## ETL row cleansing (`etl/pipelines.py`)

Staging payloads are JSON objects of string → scalar (spec §6).  `JValue`
models the scalar values `json.loads` can deliver here (booleans, arrays and
nested objects are not modelled; a JSON `null` and an absent key both read
as Python `None` via `dict.get` and are modelled as an absent key).
Collaborator contracts that are not under `src/`
(`normalize_factory_code`, `normalize_employee_id`, spec §6) are passed in
as function parameters, with the alias map closed over. -/

/-- A JSON scalar in a staging payload. -/
inductive JValue where
  | str : String → JValue
  | num : ℚ → JValue
deriving DecidableEq, Repr

/-- A parsed staging payload (a JSON object). -/
abbrev RawData := List (String × JValue)

/-- `raw_data.get(field)`. -/
def lookupRaw : RawData → String → Option JValue
  | [], _ => none
  | (k, v) :: rest, s => if k = s then some v else lookupRaw rest s

/-- `str(value).strip() == ""` on a present value (`str` of a number is
never blank). -/
def isBlankJ : JValue → Bool
  | .str s => stripChars s.data = []
  | .num _ => false

/-- Python truthiness of a scalar (`if raw_data.get("indicator")`). -/
def truthyJ : JValue → Bool
  | .str s => s ≠ ""
  | .num q => q ≠ 0

/-- Python `float(value)`.  Conversion of numeric strings is not modelled
(staging payloads carry JSON numbers); non-numeric values raise, i.e.
`none`. -/
def floatOfJ : JValue → Option ℚ
  | .num q => some q
  | .str _ => none

/-- Python `str(value)` (number formatting approximated by Lean's rational
printer — only string indicators appear in this development). -/
def pyStrJ : JValue → String
  | .str s => s
  | .num q => toString q

/-- `str(value).strip().lower()` — the indicator normalization of the
operations fallback branch. -/
def indicatorOf (v : JValue) : String :=
  lowerString ⟨stripChars (pyStrJ v).data⟩

/-- One staging-table row for a batch: `data = none` models text that fails
`json.loads` (→ `invalid_json`). -/
structure StagingRow where
  row_number : Int
  data : Option RawData
deriving DecidableEq

/-- A `dq_issues` record (batch and dataset are fixed per call and
elided; messages abbreviate Python's formatted threshold values). -/
structure Issue where
  row_number : Option Int
  issue_type : String
  issue_message : String
deriving DecidableEq, Repr

/-- `DEFAULT_ANOMALY_THRESHOLD` (env default `"1000000"`). -/
def DEFAULT_ANOMALY_THRESHOLD : ℚ := 1000000

/-- Digits-only string to `Nat` (`int` conversion inside date parsing). -/
def digitsToNat (l : List Char) : Option Nat :=
  if l ≠ [] ∧ l.all Char.isDigit then
    some (l.foldl (fun acc c => acc * 10 + (c.toNat - 48)) 0)
  else none

/-- Split a character list on a separator. -/
def splitOnChar (c : Char) : List Char → List (List Char)
  | [] => [[]]
  | x :: rest =>
      if x = c then [] :: splitOnChar c rest
      else
        match splitOnChar c rest with
        | [] => [[x]]
        | p :: ps => (x :: p) :: ps

/-- Days per month with Gregorian leap years. -/
def daysInMonth (y m : Nat) : Nat :=
  if m = 2 then
    if y % 4 = 0 ∧ (y % 100 ≠ 0 ∨ y % 400 = 0) then 29 else 28
  else if m = 4 ∨ m = 6 ∨ m = 9 ∨ m = 11 then 30
  else 31

/-- Models `datetime.fromisoformat` restricted to plain `YYYY-MM-DD` dates
(time-of-day suffixes and the other ISO forms are not modelled; every date
in this development is of this shape).  `none` models the raised
`ValueError`. -/
def parseIsoDate (s : String) : Option (Int × Int) :=
  match splitOnChar '-' s.data with
  | [y, m, d] =>
      if y.length = 4 ∧ m.length = 2 ∧ d.length = 2 then
        match digitsToNat y, digitsToNat m, digitsToNat d with
        | some yn, some mn, some dn =>
            if 1 ≤ mn ∧ mn ≤ 12 ∧ 1 ≤ dn ∧ dn ≤ daysInMonth yn mn then
              some ((yn : Int), (mn : Int))
            else none
        | _, _, _ => none
      else none
  | _ => none

/-- Models `_parse_period(str(value))`: ISO date → (year, month). -/
def parsePeriodJ : JValue → Option (Int × Int)
  | .str s => parseIsoDate s
  | .num _ => none

/-- Models `_validate_required_fields`: the fields that are absent or
blank, in `required` order. -/
def requiredMissing (raw : RawData) (required : List String) : List String :=
  required.filter fun field =>
    match lookupRaw raw field with
    | none => true
    | some v => isBlankJ v

/-- The `missing_value` issue `_validate_required_fields` records per
missing field. -/
def missingFieldIssue (rn : Int) (field : String) : Issue :=
  ⟨some rn, "missing_value", field ++ " is required"⟩

/-- One clean operations fact record (`valid_records` entry of
`_process_operations`). -/
structure OpRecord where
  factory_code : String
  year : Int
  month : Int
  revenue : Option ℚ
  cost : Option ℚ
  output_qty : Option ℚ
  downtime_hours : Option ℚ
deriving DecidableEq, Repr

/-- The operations dedup key `(factoryCode, year, month)`. -/
def opKey (r : OpRecord) : String × Int × Int :=
  (r.factory_code, r.year, r.month)

/-- Running state of the `_process_operations` loop. -/
structure OpState where
  seen_keys : List (String × Int × Int)
  valid_records : List OpRecord
  issues : List Issue
  dq_count : Nat
deriving DecidableEq

/-- The fixed operations metric fields, in extraction order. -/
def opFields : List String := ["revenue", "cost", "output_qty", "downtime_hours"]

/-- The fixed-field metric extraction loop: present non-numeric values each
record an `invalid_value` issue but scanning continues. -/
def extractFixedMetrics (raw : RawData) (rn : Int) :
    List String → List (String × ℚ) × List Issue
  | [] => ([], [])
  | field :: rest =>
      let more := extractFixedMetrics raw rn rest
      match lookupRaw raw field with
      | none => more
      | some v =>
          match floatOfJ v with
          | some q => ((field, q) :: more.1, more.2)
          | none =>
              (more.1,
               ⟨some rn, "invalid_value", field ++ " must be numeric"⟩ ::
                 more.2)

/-- The metrics exceeding their configured (or default) threshold by
absolute value, with the threshold used, in metric order. -/
def anomalousMetrics (thresholds : Ctx) (ms : List (String × ℚ)) :
    List (String × ℚ × ℚ) :=
  ms.filterMap fun m =>
    let t := (lookupCtx thresholds m.1).getD DEFAULT_ANOMALY_THRESHOLD
    if |m.2| > t then some (m.1, m.2, t) else none

/-- The `anomaly` issue recorded per exceedance. -/
def anomalyIssue (rn : Int) (m : String × ℚ × ℚ) : Issue :=
  ⟨some rn, "anomaly", m.1 ++ " exceeds threshold"⟩

/-- The per-row outcome of the operations pipeline, separated from the
state threading: whether (and with which key) the row passed the dedup
check, which record (if any) it contributes, and the issues/DQ counts it
adds. -/
inductive OpVerdict where
  | reject (issues : List Issue) (dq : Nat)
  | rejectKeyed (key : String × Int × Int) (issues : List Issue) (dq : Nat)
  | accept (key : String × Int × Int) (record : OpRecord)
      (issues : List Issue) (dq : Nat)
deriving DecidableEq

/-- The anomaly gate and record construction shared by the fixed-field and
fallback paths: any exceedance records one `anomaly` issue per exceedance
and rejects the whole row (the dedup key stays consumed); otherwise the
clean record carries the four fixed fields looked up in the metric dict. -/
def opGate (thresholds : Ctx) (rn : Int) (key : String × Int × Int)
    (ms : List (String × ℚ)) (priorIssues : List Issue) : OpVerdict :=
  match anomalousMetrics thresholds ms with
  | [] =>
      .accept key
        ⟨key.1, key.2.1, key.2.2, lookupCtx ms "revenue",
         lookupCtx ms "cost", lookupCtx ms "output_qty",
         lookupCtx ms "downtime_hours"⟩
        priorIssues priorIssues.length
  | a :: as_ =>
      .rejectKeyed key
        (priorIssues ++ (a :: as_).map (anomalyIssue rn))
        (priorIssues.length + (a :: as_).length)

/-- Models the body of `_process_operations`'s `for staging_row` loop for
one row, given the keys seen so far: parse JSON, require
`factory_code`/`date`, parse the period, resolve the factory code, dedup,
extract metrics (with the single-indicator fallback), anomaly-gate, and
build the clean record. -/
def opVerdict (thresholds : Ctx) (normFactory : Option JValue → Option String)
    (seen : List (String × Int × Int)) (row : StagingRow) : OpVerdict :=
  match row.data with
  | none =>
      .reject [⟨some row.row_number, "invalid_json",
        "staging row contains invalid JSON"⟩] 1
  | some raw =>
      let missing := requiredMissing raw ["factory_code", "date"]
      if missing ≠ [] then
        .reject (missing.map (missingFieldIssue row.row_number))
          missing.length
      else
        match (lookupRaw raw "date").bind parsePeriodJ with
        | none =>
            .reject [⟨some row.row_number, "invalid_date",
              "date format not parseable"⟩] 1
        | some (year, month) =>
            match normFactory (lookupRaw raw "factory_code") with
            | none =>
                .reject [missingFieldIssue row.row_number "factory_code"] 1
            | some fc =>
                if fc = "" then
                  .reject [missingFieldIssue row.row_number "factory_code"] 1
                else if (fc, year, month) ∈ seen then
                  .reject [⟨some row.row_number, "duplicate_key",
                    "duplicate factory+period combination"⟩] 1
                else
                  let ext := extractFixedMetrics raw row.row_number opFields
                  match ext.1 with
                  | _ :: _ => opGate thresholds row.row_number
                      (fc, year, month) ext.1 ext.2
                  | [] =>
                      if (match lookupRaw raw "indicator" with
                          | some iv => truthyJ iv
                          | none => false) &&
                          (lookupRaw raw "value").isSome then
                        match lookupRaw raw "indicator",
                            lookupRaw raw "value" with
                        | some iv, some vv =>
                            match floatOfJ vv with
                            | some q => opGate thresholds row.row_number
                                (fc, year, month) [(indicatorOf iv, q)] ext.2
                            | none =>
                                .rejectKeyed (fc, year, month)
                                  (ext.2 ++ [⟨some row.row_number,
                                    "invalid_value",
                                    "value must be numeric"⟩])
                                  (ext.2.length + 1)
                        | _, _ =>
                            .rejectKeyed (fc, year, month)
                              (ext.2 ++ [⟨some row.row_number,
                                "missing_value", "no metrics to load"⟩])
                              (ext.2.length + 1)
                      else
                        .rejectKeyed (fc, year, month)
                          (ext.2 ++ [⟨some row.row_number, "missing_value",
                            "no metrics to load"⟩])
                          (ext.2.length + 1)

/-- Fold one verdict into the running state. -/
def opStep (thresholds : Ctx)
    (normFactory : Option JValue → Option String) (st : OpState)
    (row : StagingRow) : OpState :=
  match opVerdict thresholds normFactory st.seen_keys row with
  | .reject issues dq =>
      { st with issues := st.issues ++ issues,
                dq_count := st.dq_count + dq }
  | .rejectKeyed key issues dq =>
      { st with seen_keys := st.seen_keys ++ [key],
                issues := st.issues ++ issues,
                dq_count := st.dq_count + dq }
  | .accept key record issues dq =>
      { st with seen_keys := st.seen_keys ++ [key],
                valid_records := st.valid_records ++ [record],
                issues := st.issues ++ issues,
                dq_count := st.dq_count + dq }

/-- Models `_process_operations` over a batch's staging rows in read order;
the returned pair of the Python function is
`(state.valid_records.length, state.dq_count)` and `load_fact_operations`
receives `state.valid_records`. -/
def processOperations (thresholds : Ctx)
    (normFactory : Option JValue → Option String)
    (staging_rows : List StagingRow) : OpState :=
  staging_rows.foldl (opStep thresholds normFactory) ⟨[], [], [], 0⟩

/-- The dedup key a staging row would claim, when it survives every check
before the dedup step (JSON, required fields, date parse, factory-code
normalization). -/
def opRowKey (normFactory : Option JValue → Option String)
    (row : StagingRow) : Option (String × Int × Int) :=
  match row.data with
  | none => none
  | some raw =>
      if requiredMissing raw ["factory_code", "date"] ≠ [] then none
      else
        match (lookupRaw raw "date").bind parsePeriodJ with
        | none => none
        | some (year, month) =>
            match normFactory (lookupRaw raw "factory_code") with
            | none => none
            | some fc => if fc = "" then none else some (fc, year, month)


/-- One clean employee KPI record (`valid_records` entry of
`_process_kpi`); `target` is passed through as the raw JSON value. -/
structure KpiRecord where
  employee_id : String
  factory_code : Option String
  metric_code : String
  value : ℚ
  target : Option JValue
  year : Int
  month : Int
deriving DecidableEq, Repr

/-- The KPI dedup key `(employeeId, year, month, lower(metricCode))`. -/
def kpiRecKey (r : KpiRecord) : String × Int × Int × String :=
  (r.employee_id, r.year, r.month, lowerString r.metric_code)

/-- Running state of the `_process_kpi` loop. -/
structure KpiState where
  seen_keys : List (String × Int × Int × String)
  valid_records : List KpiRecord
  issues : List Issue
  dq_count : Nat
deriving DecidableEq

/-- The per-row outcome of the KPI pipeline. -/
inductive KpiVerdict where
  | reject (issues : List Issue) (dq : Nat)
  | rejectKeyed (key : String × Int × Int × String) (issues : List Issue)
      (dq : Nat)
  | accept (key : String × Int × Int × String) (record : KpiRecord)
      (issues : List Issue) (dq : Nat)
deriving DecidableEq

/-- `str(raw_data.get("indicator")).strip()` — the stored metric code (the
required-field check guarantees the indicator is present and non-blank, so
the fallback default is never consulted). -/
def kpiMetricCode (raw : RawData) : String :=
  ⟨stripChars (pyStrJ ((lookupRaw raw "indicator").getD (.str ""))).data⟩

/-- Models the body of `_process_kpi`'s `for staging_row` loop for one row
(thresholds already lower-cased by the function's entry code): parse JSON,
require `employee_id`/`indicator`/`value`/`date`, parse the period, resolve
the employee id, dedup on `(employeeId, year, month, lower(metricCode))`,
convert the value, anomaly-gate the single value, optionally resolve the
factory code, and build the clean record. -/
def kpiVerdict (thresholds : Ctx)
    (normEmployee normFactory : Option JValue → Option String)
    (seen : List (String × Int × Int × String)) (row : StagingRow) :
    KpiVerdict :=
  match row.data with
  | none =>
      .reject [⟨some row.row_number, "invalid_json",
        "staging row contains invalid JSON"⟩] 1
  | some raw =>
      let missing :=
        requiredMissing raw ["employee_id", "indicator", "value", "date"]
      if missing ≠ [] then
        .reject (missing.map (missingFieldIssue row.row_number))
          missing.length
      else
        match (lookupRaw raw "date").bind parsePeriodJ with
        | none =>
            .reject [⟨some row.row_number, "invalid_date",
              "date format not parseable"⟩] 1
        | some (year, month) =>
            match normEmployee (lookupRaw raw "employee_id") with
            | none =>
                .reject [missingFieldIssue row.row_number "employee_id"] 1
            | some emp =>
                if emp = "" then
                  .reject [missingFieldIssue row.row_number "employee_id"] 1
                else
                  let key :=
                    (emp, year, month, lowerString (kpiMetricCode raw))
                  if key ∈ seen then
                    .reject [⟨some row.row_number, "duplicate_key",
                      "duplicate employee+period+metric combination"⟩] 1
                  else
                    match (lookupRaw raw "value").bind floatOfJ with
                    | none =>
                        .rejectKeyed key [⟨some row.row_number,
                          "invalid_value", "value must be numeric"⟩] 1
                    | some value =>
                        if |value| >
                            (lookupCtx thresholds
                              (lowerString (kpiMetricCode raw))).getD
                              DEFAULT_ANOMALY_THRESHOLD then
                          .rejectKeyed key [⟨some row.row_number, "anomaly",
                            kpiMetricCode raw ++ " exceeds threshold"⟩] 1
                        else
                          .accept key
                            ⟨emp,
                             (match lookupRaw raw "factory_code" with
                              | none => none
                              | some v => normFactory (some v)),
                             kpiMetricCode raw, value,
                             lookupRaw raw "target", year, month⟩ [] 0

/-- Fold one KPI verdict into the running state. -/
def kpiStep (thresholds : Ctx)
    (normEmployee normFactory : Option JValue → Option String)
    (st : KpiState) (row : StagingRow) : KpiState :=
  match kpiVerdict thresholds normEmployee normFactory st.seen_keys row with
  | .reject issues dq =>
      { st with issues := st.issues ++ issues,
                dq_count := st.dq_count + dq }
  | .rejectKeyed key issues dq =>
      { st with seen_keys := st.seen_keys ++ [key],
                issues := st.issues ++ issues,
                dq_count := st.dq_count + dq }
  | .accept key record issues dq =>
      { st with seen_keys := st.seen_keys ++ [key],
                valid_records := st.valid_records ++ [record],
                issues := st.issues ++ issues,
                dq_count := st.dq_count + dq }

/-- Models `_process_kpi` over a batch's staging rows in read order,
lower-casing the threshold map keys at entry as the source does. -/
def processKpi (thresholds : Ctx)
    (normEmployee normFactory : Option JValue → Option String)
    (staging_rows : List StagingRow) : KpiState :=
  staging_rows.foldl
    (kpiStep (thresholds.map fun p => (lowerString p.1, p.2))
      normEmployee normFactory)
    ⟨[], [], [], 0⟩

/-- The dedup key a KPI staging row would claim, when it survives every
check before the dedup step. -/
def kpiRowKey (normEmployee : Option JValue → Option String)
    (row : StagingRow) : Option (String × Int × Int × String) :=
  match row.data with
  | none => none
  | some raw =>
      if requiredMissing raw ["employee_id", "indicator", "value", "date"]
          ≠ [] then none
      else
        match (lookupRaw raw "date").bind parsePeriodJ with
        | none => none
        | some (year, month) =>
            match normEmployee (lookupRaw raw "employee_id") with
            | none => none
            | some emp =>
                if emp = "" then none
                else some (emp, year, month,
                  lowerString (kpiMetricCode raw))

/-! ## Batch orchestration (`run_batch`) -/

/-- The outcome `run_batch` hands its caller: the two fatal `ValueError`s
raised before the guarded processing block, or normal completion with the
`(loaded_rows, dq_issues)` counters. -/
inductive RunOutcome where
  | fatalNotFound
  | fatalUnsupportedDataset
  | completed (loaded dq : Nat)
deriving DecidableEq, Repr

/-- Observable effect of one `run_batch` call: the caller-visible outcome,
the `upload_batches` status column, the fact rows loaded and the issues
recorded. -/
structure RunResult where
  outcome : RunOutcome
  statuses : List (Int × String)
  opsLoaded : List OpRecord
  kpiLoaded : List KpiRecord
  issues : List Issue
deriving DecidableEq

/-- `SELECT id, dataset FROM upload_batches WHERE id = ?`. -/
def lookupBatch : List (Int × String) → Int → Option String
  | [], _ => none
  | (i, d) :: rest, id_ => if i = id_ then some d else lookupBatch rest id_

/-- `UPDATE upload_batches SET status = ? WHERE id = ?`: touches only an
existing row. -/
def setStatus : List (Int × String) → Int → String → List (Int × String)
  | [], _, _ => []
  | (i, st) :: rest, id_, s =>
      if i = id_ then (i, s) :: rest else (i, st) :: setStatus rest id_ s

/-- Models `run_batch`: load the batch by id (unknown id → `ValueError`
raised *before* the `try` block, so no status write), dispatch through the
fixed dataset→staging-table map (`operations`/`kpi`; anything else →
`ValueError`, again before the `try`), process the batch's staging rows,
and on success finalize the batch as `completed`.  The modelled processing
never raises, so the `except` branch that writes `status = failed` is
unreachable here, exactly as it is for the two fatal kinds in the source. -/
def runBatch (batches statuses : List (Int × String)) (thresholds : Ctx)
    (normFactory normEmployee : Option JValue → Option String)
    (stgOperations stgKpi : List StagingRow) (batch_id : Int) : RunResult :=
  match lookupBatch batches batch_id with
  | none => ⟨.fatalNotFound, statuses, [], [], []⟩
  | some dataset =>
      if dataset = "operations" then
        let st := processOperations thresholds normFactory stgOperations
        ⟨.completed st.valid_records.length st.dq_count,
         setStatus statuses batch_id "completed",
         st.valid_records, [], st.issues⟩
      else if dataset = "kpi" then
        let st := processKpi thresholds normEmployee normFactory stgKpi
        ⟨.completed st.valid_records.length st.dq_count,
         setStatus statuses batch_id "completed",
         [], st.valid_records, st.issues⟩
      else ⟨.fatalUnsupportedDataset, statuses, [], [], []⟩


/-- Modelled from the spec: `normalizeFactoryCode(raw, aliasMap) -> code|null`
/ `normalizeEmployeeId(raw, aliasMap) -> id|null` (external dimension
resolver, spec §6; body not under `src/`) — a minimal conforming instance
for concrete witnesses: string values pass through unchanged, anything else
resolves to null. -/
def passThroughNorm : Option JValue → Option String
  | some (.str s) => some s
  | _ => none

/-- An operations staging row with revenue 2,000,000 (spec §8's anomaly
example). -/
def anomalyRow : StagingRow :=
  ⟨1, some [("factory_code", .str "F1"), ("date", .str "2024-01-15"),
            ("revenue", .num 2000000)]⟩

/-- An operations staging row accepted through the `indicator`/`value`
fallback with an indicator outside the four fixed metric fields. -/
def headcountRow : StagingRow :=
  ⟨1, some [("factory_code", .str "F1"), ("date", .str "2024-01-15"),
            ("indicator", .str "Headcount"), ("value", .num 25)]⟩

/-- A second operations staging row for factory F1 dated inside the same
month as an earlier row (spec §8's dedup example, second row). -/
def dupRow : StagingRow :=
  ⟨2, some [("factory_code", .str "F1"), ("date", .str "2024-01-20"),
            ("revenue", .num 5)]⟩

/-! ## Lemmas about rollup grouping -/

theorem lookupGroup_insertGroup_self (g : Groups) (k : RollupKey)
    (v : MonthEntry) :
    lookupGroup (insertGroup g k v) k =
      some ((lookupGroup g k).getD [] ++ [v]) := by
  induction g with
  | nil => simp [insertGroup, lookupGroup]
  | cons hd t ih =>
      obtain ⟨k', vs⟩ := hd
      by_cases hk : k' = k
      · subst hk
        simp [insertGroup, lookupGroup]
      · simp [insertGroup, lookupGroup, hk, ih]

theorem lookupGroup_insertGroup_ne (g : Groups) {k k' : RollupKey}
    (v : MonthEntry) (h : k' ≠ k) :
    lookupGroup (insertGroup g k v) k' = lookupGroup g k' := by
  induction g with
  | nil => simp [insertGroup, lookupGroup, Ne.symm h]
  | cons hd t ih =>
      obtain ⟨k'', vs⟩ := hd
      by_cases hk : k'' = k
      · subst hk
        simp [insertGroup, lookupGroup, Ne.symm h]
      · simp [insertGroup, lookupGroup, hk, ih]

theorem lookupGroup_buildGroups (pidx : PeriodTable) (scope level : String)
    (rows : List ResultRow) :
    ∀ (g : Groups) (k : RollupKey),
      lookupGroup (buildGroups pidx scope level rows g) k =
        match lookupGroup g k with
        | some vs =>
            some (vs ++ rows.filterMap (groupContribution pidx scope level k))
        | none =>
            match rows.filterMap (groupContribution pidx scope level k) with
            | [] => none
            | cs => some cs := by
  induction rows with
  | nil =>
      intro g k
      cases hg : lookupGroup g k <;> simp [buildGroups, hg]
  | cons row rest ih =>
      intro g k
      rw [buildGroups]
      by_cases hsc : row.scope = scope
      · simp only [hsc, ne_eq, not_true_eq_false, if_false]
        cases hlp : lookupPeriod pidx row.period_key with
        | none =>
            dsimp only
            have hc : groupContribution pidx scope level k row = none := by
              simp [groupContribution, hsc, hlp]
            rw [ih]
            cases hg : lookupGroup g k <;>
              simp [List.filterMap_cons, hc, hg]
        | some p =>
            dsimp only
            by_cases hkey :
                (⟨row.scope_id, row.metric_code, p.year,
                  if level = "quarter" then some p.quarter else none⟩ :
                  RollupKey) = k
            · have hc : groupContribution pidx scope level k row =
                  some ⟨p.month, row.value, row.target⟩ := by
                simp [groupContribution, hsc, hlp, hkey]
              rw [hkey, ih, lookupGroup_insertGroup_self]
              cases hg : lookupGroup g k <;>
                simp [List.filterMap_cons, hc, hg]
            · have hc : groupContribution pidx scope level k row = none := by
                simp [groupContribution, hsc, hlp, hkey]
              rw [ih, lookupGroup_insertGroup_ne _ _ (Ne.symm hkey)]
              cases hg : lookupGroup g k <;>
                simp [List.filterMap_cons, hc, hg]
      · simp only [hsc, ne_eq, not_false_eq_true, if_true]
        have hc : groupContribution pidx scope level k row = none := by
          simp [groupContribution, hsc]
        rw [ih]
        cases hg : lookupGroup g k <;>
          simp [List.filterMap_cons, hc, hg]

theorem groupKeys_insertGroup (g : Groups) (k : RollupKey) (v : MonthEntry) :
    groupKeys (insertGroup g k v) =
      if k ∈ groupKeys g then groupKeys g else groupKeys g ++ [k] := by
  induction g with
  | nil => simp [insertGroup, groupKeys]
  | cons hd t ih =>
      obtain ⟨k', vs⟩ := hd
      by_cases hk : k' = k
      · subst hk
        simp [insertGroup, groupKeys]
      · simp [insertGroup, groupKeys, hk, Ne.symm hk] at ih ⊢
        rw [ih]
        by_cases hmem : k ∈ t.map Prod.fst <;> simp [hmem, Ne.symm hk]

theorem nodup_groupKeys_insertGroup {g : Groups} (k : RollupKey)
    (v : MonthEntry) (h : (groupKeys g).Nodup) :
    (groupKeys (insertGroup g k v)).Nodup := by
  rw [groupKeys_insertGroup]
  by_cases hmem : k ∈ groupKeys g
  · simpa [hmem] using h
  · simpa [hmem, List.nodup_append] using h

theorem nodup_groupKeys_buildGroups (pidx : PeriodTable)
    (scope level : String) (rows : List ResultRow) :
    ∀ g : Groups, (groupKeys g).Nodup →
      (groupKeys (buildGroups pidx scope level rows g)).Nodup := by
  induction rows with
  | nil => intro g h; simpa [buildGroups] using h
  | cons row rest ih =>
      intro g h
      rw [buildGroups]
      by_cases hsc : row.scope = scope
      · simp only [hsc, ne_eq, not_true_eq_false, if_false]
        cases hlp : lookupPeriod pidx row.period_key with
        | none => exact ih g h
        | some p =>
            dsimp only
            exact ih _ (nodup_groupKeys_insertGroup _ _ h)
      · simp only [hsc, ne_eq, not_false_eq_true, if_true]
        exact ih g h

theorem lookupGroup_eq_some_of_mem :
    ∀ {g : Groups} {k : RollupKey} {vs : List MonthEntry},
      (groupKeys g).Nodup → (k, vs) ∈ g → lookupGroup g k = some vs := by
  intro g
  induction g with
  | nil => intro k vs _ h; simp at h
  | cons hd t ih =>
      intro k vs hnd hmem
      obtain ⟨k', vs'⟩ := hd
      have hnd' : (k' :: t.map Prod.fst).Nodup := by simpa [groupKeys] using hnd
      rcases List.mem_cons.mp hmem with heq | htail
      · cases heq
        simp [lookupGroup]
      · have hk : k' ≠ k := by
          rintro rfl
          exact (List.nodup_cons.mp hnd').1
            (List.mem_map_of_mem Prod.fst htail)
        simp only [lookupGroup, hk, if_false]
        exact ih (by simpa [groupKeys] using (List.nodup_cons.mp hnd').2) htail

theorem rollupAgg_mem (metric_defs : List MetricDefinition)
    (scope level : String) :
    ∀ (groups : Groups) (tbl : PeriodTable) (row : ResultRow),
      row ∈ (rollupAgg metric_defs scope level groups tbl).1 →
      ∃ key values metric, (key, values) ∈ groups ∧
        lookupMetricDef metric_defs key.metric_code = some metric ∧
        row.scope = scope ∧ row.scope_id = key.scope_id ∧
        row.metric_code = key.metric_code ∧
        row.value = aggregateValues (values.filterMap (·.value)) values
          metric.aggregation ∧
        row.target = aggregateValues (values.filterMap (·.target)) values
          metric.aggregation ∧
        row.weight = metric.weight := by
  intro groups
  induction groups with
  | nil => intro tbl row h; simp [rollupAgg] at h
  | cons hd rest ih =>
      intro tbl row h
      obtain ⟨key, values⟩ := hd
      rw [rollupAgg] at h
      cases hmd : lookupMetricDef metric_defs key.metric_code with
      | none =>
          rw [hmd] at h
          obtain ⟨k, v, m, hmem, rest'⟩ := ih _ _ h
          exact ⟨k, v, m, List.mem_cons_of_mem _ hmem, rest'⟩
      | some metric =>
          rw [hmd] at h
          rcases List.mem_cons.mp h with heq | htail
          · subst heq
            exact ⟨key, values, metric, List.mem_cons_self _ _, hmd,
              rfl, rfl, rfl, rfl, rfl, rfl⟩
          · obtain ⟨k, v, m, hmem, rest'⟩ := ih _ _ htail
            exact ⟨k, v, m, List.mem_cons_of_mem _ hmem, rest'⟩

theorem rollupAgg_emits (metric_defs : List MetricDefinition)
    (scope level : String) :
    ∀ (groups : Groups) (tbl : PeriodTable) (key : RollupKey)
      (values : List MonthEntry) (metric : MetricDefinition),
      (key, values) ∈ groups →
      lookupMetricDef metric_defs key.metric_code = some metric →
      ∃ row ∈ (rollupAgg metric_defs scope level groups tbl).1,
        row.scope = scope ∧ row.scope_id = key.scope_id ∧
        row.metric_code = key.metric_code ∧
        row.value = aggregateValues (values.filterMap (·.value)) values
          metric.aggregation := by
  intro groups
  induction groups with
  | nil => intro tbl key values metric h; simp at h
  | cons hd rest ih =>
      intro tbl key values metric hmem hmd
      obtain ⟨key', values'⟩ := hd
      rcases List.mem_cons.mp hmem with heq | htail
      · injection heq with h1 h2
        subst h1
        subst h2
        rw [rollupAgg, hmd]
        exact ⟨_, List.mem_cons_self _ _, rfl, rfl, rfl, rfl⟩
      · rw [rollupAgg]
        cases hmd' : lookupMetricDef metric_defs key'.metric_code with
        | none =>
            exact ih _ _ _ _ htail hmd
        | some metric' =>
            obtain ⟨row, hrow, hprops⟩ := ih _ key values metric htail hmd
            exact ⟨row, List.mem_cons_of_mem _ hrow, hprops⟩


/-! ## Lemmas about the expression evaluator -/

mutual
theorem pyEval_ok_names :
    ∀ (ctx : Ctx) (e : PyExpr) (v : PyVal), pyEval ctx e = .ok v →
      ∀ n ∈ exprNames e, (lookupCtx ctx n).isSome ∨ n ∈ builtinNames
  | ctx, .const q, v, h => by
      intro n hn
      simp [exprNames] at hn
  | ctx, .name s, v, h => by
      intro n hn
      simp only [exprNames, List.mem_singleton] at hn
      subst hn
      rw [pyEval] at h
      cases hc : lookupCtx ctx n with
      | some q => left; simp [hc]
      | none =>
          rw [hc] at h
          by_cases hb : n ∈ builtinNames
          · right; exact hb
          · rw [if_neg hb] at h; cases h
  | ctx, .unaryOp op e, v, h => by
      intro n hn
      rw [pyEval] at h
      cases he : pyEval ctx e with
      | error err => rw [he] at h; cases h
      | ok v' =>
          exact pyEval_ok_names ctx e v' he n
            (by simpa [exprNames] using hn)
  | ctx, .binOp op a b, v, h => by
      intro n hn
      rw [pyEval] at h
      cases ha : pyEval ctx a with
      | error err => rw [ha] at h; cases h
      | ok va =>
          cases hb : pyEval ctx b with
          | error err =>
              rw [ha, hb] at h
              simp only [Except.instMonad, Except.bind] at h
              cases h
          | ok vb =>
              simp only [exprNames, List.mem_append] at hn
              rcases hn with hn | hn
              · exact pyEval_ok_names ctx a va ha n hn
              · exact pyEval_ok_names ctx b vb hb n hn
  | ctx, .call f args, v, h => by
      intro n hn
      rw [pyEval] at h
      cases hf : pyEval ctx f with
      | error err => rw [hf] at h; cases h
      | ok vf =>
          cases hargs : pyEvalArgs ctx args with
          | error err =>
              rw [hf, hargs] at h
              simp only [Except.instMonad, Except.bind] at h
              cases h
          | ok vs =>
              simp only [exprNames, List.mem_append] at hn
              rcases hn with hn | hn
              · exact pyEval_ok_names ctx f vf hf n hn
              · exact pyEvalArgs_ok_names ctx args vs hargs n hn
  | ctx, .attribute e a, v, h => by rw [pyEval] at h; cases h
  | ctx, .subscript e i, v, h => by rw [pyEval] at h; cases h
  | ctx, .listComp a b, v, h => by rw [pyEval] at h; cases h

theorem pyEvalArgs_ok_names :
    ∀ (ctx : Ctx) (args : PyArgs) (vs : List PyVal),
      pyEvalArgs ctx args = .ok vs →
      ∀ n ∈ argsNames args, (lookupCtx ctx n).isSome ∨ n ∈ builtinNames
  | ctx, .nil, vs, h => by
      intro n hn
      simp [argsNames] at hn
  | ctx, .cons e es, vs, h => by
      intro n hn
      rw [pyEvalArgs] at h
      cases he : pyEval ctx e with
      | error err => rw [he] at h; cases h
      | ok v =>
          cases hes : pyEvalArgs ctx es with
          | error err =>
              rw [he, hes] at h
              simp only [Except.instMonad, Except.bind] at h
              cases h
          | ok vs' =>
              simp only [argsNames, List.mem_append] at hn
              rcases hn with hn | hn
              · exact pyEval_ok_names ctx e v he n hn
              · exact pyEvalArgs_ok_names ctx es vs' hes n hn
end


/-! ## Lemmas about dependency resolution -/

theorem lookupComputed_append (c : Computed) (k' : String) (v' : Option ℚ)
    (code : String) :
    lookupComputed (c ++ [(k', v')]) code =
      match lookupComputed c code with
      | some v => some v
      | none => if k' = code then some v' else none := by
  induction c with
  | nil => simp [lookupComputed]
  | cons hd t ih =>
      obtain ⟨k, v⟩ := hd
      by_cases hk : k = code <;> simp [lookupComputed, hk, ih]

theorem lookupCtx_setCtx (ctx : Ctx) (k : String) (v : ℚ) (s : String) :
    lookupCtx (setCtx ctx k v) s = if k = s then some v else lookupCtx ctx s := by
  induction ctx with
  | nil => simp [setCtx, lookupCtx]
  | cons hd t ih =>
      obtain ⟨k', v'⟩ := hd
      by_cases hk : k' = k
      · subst hk
        by_cases hs : k' = s <;> simp [setCtx, lookupCtx, hs]
      · by_cases hs : k = s <;> by_cases hs' : k' = s <;>
          simp_all [setCtx, lookupCtx]

theorem passMetrics_preserves_computed (fm : FunctionMap) :
    ∀ (ds : List MetricDefinition) (st : ResolveState) (p : Bool)
      (st' : ResolveState) (p' : Bool),
      passMetrics fm ds st p = .ok (st', p') →
      ∀ code v, lookupComputed st.computed code = some v →
        lookupComputed st'.computed code = some v := by
  intro ds
  induction ds with
  | nil =>
      intro st p st' p' h code v hv
      rw [passMetrics] at h
      injection h with h
      injection h with h1 h2
      rw [← h1]
      exact hv
  | cons m rest ih =>
      intro st p st' p' h code v hv
      rw [passMetrics] at h
      by_cases hskip : (lookupComputed st.computed m.metric_code).isSome
      · rw [if_pos hskip] at h
        exact ih _ _ _ _ h code v hv
      · rw [if_neg hskip] at h
        cases hev : evaluateMetric fm m st.context with
        | some w =>
            rw [hev] at h
            refine ih _ _ _ _ h code v ?_
            rw [lookupComputed_append, hv]
        | none =>
            rw [hev] at h
            cases hrdy : dependenciesReady fm m st.context with
            | error e =>
                rw [hrdy] at h
                simp only [Except.instMonad, Except.bind] at h
                cases h
            | ok rb =>
                rw [hrdy] at h
                simp only [Except.instMonad, Except.bind] at h
                cases rb with
                | true =>
                    simp only [if_true] at h
                    refine ih _ _ _ _ h code v ?_
                    rw [lookupComputed_append, hv]
                | false =>
                    simp only [Bool.false_eq_true, if_false] at h
                    exact ih _ _ _ _ h code v hv

theorem passMetrics_ctx_mono (fm : FunctionMap) :
    ∀ (ds : List MetricDefinition) (st : ResolveState) (p : Bool)
      (st' : ResolveState) (p' : Bool),
      passMetrics fm ds st p = .ok (st', p') →
      ∀ s, (lookupCtx st.context s).isSome →
        (lookupCtx st'.context s).isSome := by
  intro ds
  induction ds with
  | nil =>
      intro st p st' p' h s hs
      rw [passMetrics] at h
      injection h with h
      injection h with h1 h2
      rw [← h1]
      exact hs
  | cons m rest ih =>
      intro st p st' p' h s hs
      rw [passMetrics] at h
      by_cases hskip : (lookupComputed st.computed m.metric_code).isSome
      · rw [if_pos hskip] at h
        exact ih _ _ _ _ h s hs
      · rw [if_neg hskip] at h
        cases hev : evaluateMetric fm m st.context with
        | some w =>
            rw [hev] at h
            refine ih _ _ _ _ h s ?_
            rw [lookupCtx_setCtx]
            by_cases hk : m.metric_code = s <;> simp [hk, hs]
        | none =>
            rw [hev] at h
            cases hrdy : dependenciesReady fm m st.context with
            | error e =>
                rw [hrdy] at h
                simp only [Except.instMonad, Except.bind] at h
                cases h
            | ok rb =>
                rw [hrdy] at h
                simp only [Except.instMonad, Except.bind] at h
                cases rb with
                | true =>
                    simp only [if_true] at h
                    exact ih _ _ _ _ h s hs
                | false =>
                    simp only [Bool.false_eq_true, if_false] at h
                    exact ih _ _ _ _ h s hs

theorem dependenciesReady_mono (fm : FunctionMap) (metric : MetricDefinition)
    {ctx ctx' : Ctx}
    (hsub : ∀ s, (lookupCtx ctx s).isSome → (lookupCtx ctx' s).isSome) :
    dependenciesReady fm metric ctx = .ok true →
    dependenciesReady fm metric ctx' = .ok true := by
  intro h
  rw [dependenciesReady] at h ⊢
  cases hf : metric.formula with
  | none => simp [hf]
  | some f =>
      simp only [hf] at h ⊢
      cases hast : f.ast with
      | none => simp only [hast] at h; cases h
      | some tree =>
          simp only [hast] at h ⊢
          injection h with h
          rw [show ((exprNames tree).all fun n =>
            (lookupCtx ctx' n).isSome || (lookupFn fm n).isSome) = true
            from ?_]
          · simp only [List.all_eq_true] at h
            simp only [List.all_eq_true]
            intro n hn
            rcases Bool.or_eq_true_iff.mp (h n hn) with hc | hfn
            · exact Bool.or_eq_true_iff.mpr (Or.inl (hsub n hc))
            · exact Bool.or_eq_true_iff.mpr (Or.inr hfn)

theorem passMetrics_resolves_ready (fm : FunctionMap) :
    ∀ (ds : List MetricDefinition) (st : ResolveState) (p : Bool)
      (st' : ResolveState) (p' : Bool) (metric : MetricDefinition),
      metric ∈ ds →
      passMetrics fm ds st p = .ok (st', p') →
      dependenciesReady fm metric st.context = .ok true →
      (lookupComputed st'.computed metric.metric_code).isSome := by
  intro ds
  induction ds with
  | nil => intro st p st' p' metric hmem; simp at hmem
  | cons m rest ih =>
      intro st p st' p' metric hmem h hrdy
      rw [passMetrics] at h
      rcases List.mem_cons.mp hmem with heq | htail
      · subst heq
        by_cases hskip : (lookupComputed st.computed metric.metric_code).isSome
        · rw [if_pos hskip] at h
          obtain ⟨v, hv⟩ := Option.isSome_iff_exists.mp hskip
          exact Option.isSome_iff_exists.mpr
            ⟨v, passMetrics_preserves_computed fm _ _ _ _ _ h _ v hv⟩
        · rw [if_neg hskip] at h
          cases hev : evaluateMetric fm metric st.context with
          | some w =>
              rw [hev] at h
              have hnew : lookupComputed
                  (st.computed ++ [(metric.metric_code, some w)])
                  metric.metric_code = some (some w) := by
                rw [lookupComputed_append,
                  Option.not_isSome_iff_eq_none.mp hskip]
                simp
              exact Option.isSome_iff_exists.mpr
                ⟨some w, passMetrics_preserves_computed fm _ _ _ _ _ h _ _ hnew⟩
          | none =>
              rw [hev, hrdy] at h
              simp only [Except.instMonad, Except.bind, if_true] at h
              have hnew : lookupComputed
                  (st.computed ++ [(metric.metric_code, none)])
                  metric.metric_code = some none := by
                rw [lookupComputed_append,
                  Option.not_isSome_iff_eq_none.mp hskip]
                simp
              exact Option.isSome_iff_exists.mpr
                ⟨none, passMetrics_preserves_computed fm _ _ _ _ _ h _ _ hnew⟩
      · by_cases hskip : (lookupComputed st.computed m.metric_code).isSome
        · rw [if_pos hskip] at h
          exact ih _ _ _ _ metric htail h hrdy
        · rw [if_neg hskip] at h
          cases hev : evaluateMetric fm m st.context with
          | some w =>
              rw [hev] at h
              refine ih _ _ _ _ metric htail h ?_
              refine dependenciesReady_mono fm metric ?_ hrdy
              intro s hs
              rw [lookupCtx_setCtx]
              by_cases hk : m.metric_code = s <;> simp [hk, hs]
          | none =>
              rw [hev] at h
              cases hrdy' : dependenciesReady fm m st.context with
              | error e =>
                  rw [hrdy'] at h
                  simp only [Except.instMonad, Except.bind] at h
                  cases h
              | ok rb =>
                  rw [hrdy'] at h
                  simp only [Except.instMonad, Except.bind] at h
                  cases rb with
                  | true =>
                      simp only [if_true] at h
                      exact ih _ _ _ _ metric htail h hrdy
                  | false =>
                      simp only [Bool.false_eq_true, if_false] at h
                      exact ih _ _ _ _ metric htail h hrdy

theorem passMetrics_ok_of_parseable (fm : FunctionMap) :
    ∀ (ds : List MetricDefinition),
      (∀ m ∈ ds, m.formula = none ∨
        ∃ f e, m.formula = some f ∧ f.ast = some e) →
      ∀ (st : ResolveState) (p : Bool),
        ∃ out, passMetrics fm ds st p = .ok out := by
  intro ds
  induction ds with
  | nil => exact fun _ st p => ⟨(st, p), rfl⟩
  | cons m rest ih =>
      intro hparse st p
      have hrest := fun m hm => hparse m (List.mem_cons_of_mem _ hm)
      rw [passMetrics]
      by_cases hskip : (lookupComputed st.computed m.metric_code).isSome
      · rw [if_pos hskip]
        exact ih hrest _ _
      · rw [if_neg hskip]
        cases hev : evaluateMetric fm m st.context with
        | some w => dsimp only; exact ih hrest _ _
        | none =>
            dsimp only
            have hrdy : ∃ rb, dependenciesReady fm m st.context = .ok rb := by
              rcases hparse m (List.mem_cons_self _ _) with hnone | ⟨f, e, hf, he⟩
              · exact ⟨true, by rw [dependenciesReady]; simp [hnone]⟩
              · exact ⟨(exprNames e).all fun n =>
                  (lookupCtx st.context n).isSome || (lookupFn fm n).isSome,
                  by rw [dependenciesReady]; simp [hf, he]⟩
            obtain ⟨rb, hrb⟩ := hrdy
            rw [hrb]
            simp only [Except.instMonad, Except.bind]
            cases rb with
            | true => simpa using ih hrest _ _
            | false => simpa using ih hrest _ _

theorem passMetrics_codes (fm : FunctionMap) :
    ∀ (ds : List MetricDefinition) (st : ResolveState) (p : Bool)
      (st' : ResolveState) (p' : Bool),
      passMetrics fm ds st p = .ok (st', p') →
      ∀ code, (lookupComputed st'.computed code).isSome →
        (lookupComputed st.computed code).isSome ∨
          code ∈ ds.map (·.metric_code) := by
  intro ds
  induction ds with
  | nil =>
      intro st p st' p' h code hc
      rw [passMetrics] at h
      injection h with h
      injection h with h1 h2
      rw [← h1] at hc
      exact Or.inl hc
  | cons m rest ih =>
      intro st p st' p' h code hc
      rw [passMetrics] at h
      by_cases hskip : (lookupComputed st.computed m.metric_code).isSome
      · rw [if_pos hskip] at h
        rcases ih _ _ _ _ h code hc with hin | hin
        · exact Or.inl hin
        · exact Or.inr (List.mem_cons_of_mem _ hin)
      · rw [if_neg hskip] at h
        have hstep : ∀ w, lookupComputed
            (st.computed ++ [(m.metric_code, w)]) code |>.isSome →
            (lookupComputed st.computed code).isSome ∨
              code ∈ (m :: rest).map (·.metric_code) := by
          intro w hw
          rw [lookupComputed_append] at hw
          cases hb : lookupComputed st.computed code with
          | some v => exact Or.inl (by simp [hb])
          | none =>
              rw [hb] at hw
              by_cases hkc : m.metric_code = code
              · exact Or.inr (by simp [hkc.symm])
              · simp [hkc] at hw
        cases hev : evaluateMetric fm m st.context with
        | some w =>
            rw [hev] at h
            rcases ih _ _ _ _ h code hc with hin | hin
            · rcases hstep _ hin with hl | hr
              · exact Or.inl hl
              · exact Or.inr hr
            · exact Or.inr (List.mem_cons_of_mem _ hin)
        | none =>
            rw [hev] at h
            cases hrdy : dependenciesReady fm m st.context with
            | error e =>
                rw [hrdy] at h
                simp only [Except.instMonad, Except.bind] at h
                cases h
            | ok rb =>
                rw [hrdy] at h
                simp only [Except.instMonad, Except.bind] at h
                cases rb with
                | true =>
                    simp only [if_true] at h
                    rcases ih _ _ _ _ h code hc with hin | hin
                    · rcases hstep _ hin with hl | hr
                      · exact Or.inl hl
                      · exact Or.inr hr
                    · exact Or.inr (List.mem_cons_of_mem _ hin)
                | false =>
                    simp only [Bool.false_eq_true, if_false] at h
                    rcases ih _ _ _ _ h code hc with hin | hin
                    · exact Or.inl hin
                    · exact Or.inr (List.mem_cons_of_mem _ hin)

theorem resolveLoop_eq_runPasses (fm : FunctionMap)
    (metric_defs : List MetricDefinition) :
    ∀ (fuel : Nat) (st : ResolveState),
      ∃ k ≤ fuel, resolveLoop fm metric_defs fuel st =
        runPasses fm metric_defs k st := by
  intro fuel
  induction fuel with
  | zero => exact fun st => ⟨0, le_refl 0, rfl⟩
  | succ n ih =>
      intro st
      rw [resolveLoop]
      cases hp : passMetrics fm metric_defs st false with
      | error e =>
          refine ⟨1, by omega, ?_⟩
          rw [runPasses, hp]
          rfl
      | ok out =>
          obtain ⟨st', progress⟩ := out
          cases progress with
          | true =>
              obtain ⟨k, hk, heq⟩ := ih st'
              refine ⟨k + 1, by omega, ?_⟩
              rw [runPasses, hp]
              simp only [Except.instMonad, Except.bind, if_true]
              exact heq
          | false =>
              refine ⟨1, by omega, ?_⟩
              rw [runPasses, hp]
              simp only [Except.instMonad, Except.bind, Bool.false_eq_true,
                if_false]
              rfl

theorem resolveLoop_ok_of_parseable (fm : FunctionMap)
    (metric_defs : List MetricDefinition)
    (hparse : ∀ m ∈ metric_defs, m.formula = none ∨
      ∃ f e, m.formula = some f ∧ f.ast = some e) :
    ∀ (fuel : Nat) (st : ResolveState),
      ∃ st', resolveLoop fm metric_defs fuel st = .ok st' := by
  intro fuel
  induction fuel with
  | zero => exact fun st => ⟨st, rfl⟩
  | succ n ih =>
      intro st
      rw [resolveLoop]
      obtain ⟨⟨st', progress⟩, hp⟩ :=
        passMetrics_ok_of_parseable fm metric_defs hparse st false
      rw [hp]
      simp only [Except.instMonad, Except.bind]
      cases progress with
      | true => simpa using ih st'
      | false => exact ⟨st', rfl⟩


/-! ## Claim scenarios -/

/-- C2: a KPI calculation run over January–March 2024 revenue 10/20/30 with
a sum-aggregated metric.  The non-null monthly values sum to 60, but the
year rollup row (period key 4 = the created (12, 2024) period) carries 120:
the year rollup is computed from the accumulated results list, which already
contains the Q1 quarter rollup row (value 60) persisted under the
pre-existing (3, 2024) period, so the quarter rollup is double-counted —
contradicting the claim that the year rollup derives only from the run's
monthly rows and equals their sum. -/
theorem C2_year_rollup_double_counts_quarter_rows :
    calculateRun [] sumRevenueDefs q1Records [] q1PeriodTable =
      .ok ([⟨"factory", 1, 1, "revenue", some 10, none, none⟩,
            ⟨"factory", 1, 2, "revenue", some 20, none, none⟩,
            ⟨"factory", 1, 3, "revenue", some 30, none, none⟩,
            ⟨"factory", 1, 3, "revenue", some 60, none, none⟩,
            ⟨"factory", 1, 4, "revenue", some 120, none, none⟩],
           q1PeriodTable ++ [(4, ⟨12, 4, 2024⟩)]) ∧
    (10 : ℚ) + 20 + 30 ≠ 120 := by
  constructor
  · simp +decide [calculateRun, calculateForScope, evaluateMetrics,
      resolveLoop, passMetrics, evaluateMetric, lookupFn, lookupCtx,
      lookupComputed, setCtx, dependenciesReady, scopeRows, rollupResults,
      buildGroups, insertGroup, lookupPeriod, lookupMetricDef, rollupAgg,
      aggregateValues, maxByMonth, resolveRollupPeriod, getOrCreatePeriod,
      findPeriodKey, maxPeriodKey, lowerString, lowerChar, sumRevenueDefs,
      q1PeriodTable, q1Records, Except.instMonad, Except.bind, Except.map]
    norm_num
  · norm_num

/-- C3: the same calculation run twice on unchanged fact tables and metric
configuration.  The first run (period table = January–February 2024 only)
creates the synthetic Q1 and year periods and reports a year rollup of 30;
the second run reloads the period index, now containing the Q1 period the
first run created, so its year rollup also absorbs the quarter rollup row
and reports 60 — the two runs produce different `fact_kpi_calc` row sets,
refuting delete-then-insert idempotence. -/
theorem C3_second_run_produces_different_rows :
    calculateRun [] sumRevenueDefs janFebRecords [] janFebPeriodTable =
      .ok ([⟨"factory", 1, 1, "revenue", some 10, none, none⟩,
            ⟨"factory", 1, 2, "revenue", some 20, none, none⟩,
            ⟨"factory", 1, 3, "revenue", some 30, none, none⟩,
            ⟨"factory", 1, 4, "revenue", some 30, none, none⟩],
           janFebPeriodTable ++ [(3, ⟨3, 1, 2024⟩), (4, ⟨12, 4, 2024⟩)]) ∧
    calculateRun [] sumRevenueDefs janFebRecords []
        (janFebPeriodTable ++ [(3, ⟨3, 1, 2024⟩), (4, ⟨12, 4, 2024⟩)]) =
      .ok ([⟨"factory", 1, 1, "revenue", some 10, none, none⟩,
            ⟨"factory", 1, 2, "revenue", some 20, none, none⟩,
            ⟨"factory", 1, 3, "revenue", some 30, none, none⟩,
            ⟨"factory", 1, 4, "revenue", some 60, none, none⟩],
           janFebPeriodTable ++ [(3, ⟨3, 1, 2024⟩), (4, ⟨12, 4, 2024⟩)]) ∧
    ([⟨"factory", 1, 1, "revenue", some 10, none, none⟩,
      ⟨"factory", 1, 2, "revenue", some 20, none, none⟩,
      ⟨"factory", 1, 3, "revenue", some 30, none, none⟩,
      ⟨"factory", 1, 4, "revenue", some 30, none, none⟩] :
        List ResultRow) ≠
      [⟨"factory", 1, 1, "revenue", some 10, none, none⟩,
       ⟨"factory", 1, 2, "revenue", some 20, none, none⟩,
       ⟨"factory", 1, 3, "revenue", some 30, none, none⟩,
       ⟨"factory", 1, 4, "revenue", some 60, none, none⟩] := by
  refine ⟨?_, ?_, ?_⟩
  · simp +decide [calculateRun, calculateForScope, evaluateMetrics,
      resolveLoop, passMetrics, evaluateMetric, lookupFn, lookupCtx,
      lookupComputed, setCtx, dependenciesReady, scopeRows, rollupResults,
      buildGroups, insertGroup, lookupPeriod, lookupMetricDef, rollupAgg,
      aggregateValues, maxByMonth, resolveRollupPeriod, getOrCreatePeriod,
      findPeriodKey, maxPeriodKey, lowerString, lowerChar, sumRevenueDefs,
      janFebPeriodTable, janFebRecords, Except.instMonad, Except.bind,
      Except.map]
    norm_num
  · simp +decide [calculateRun, calculateForScope, evaluateMetrics,
      resolveLoop, passMetrics, evaluateMetric, lookupFn, lookupCtx,
      lookupComputed, setCtx, dependenciesReady, scopeRows, rollupResults,
      buildGroups, insertGroup, lookupPeriod, lookupMetricDef, rollupAgg,
      aggregateValues, maxByMonth, resolveRollupPeriod, getOrCreatePeriod,
      findPeriodKey, maxPeriodKey, lowerString, lowerChar, sumRevenueDefs,
      janFebPeriodTable, janFebRecords, Except.instMonad, Except.bind,
      Except.map]
    norm_num
  · intro h
    have := List.getElem_of_eq h (by norm_num : 3 < 4)
    simp at this

/-- C9 (counterexample): a latest-aggregated metric with monthly rows
January = 5 and February = null.  The claim says the rollup value is the
value from the greatest-numbered month among the *non-null* monthly inputs,
i.e. 5 (January); the code takes the greatest month over *all* rows —
February, whose value is null — and emits a null rollup value. -/
theorem C9_latest_returns_null_at_null_greatest_month :
    rollupResults
        [⟨"factory", 1, 1, "m", some 5, none, none⟩,
         ⟨"factory", 1, 2, "m", none, none, none⟩]
        [{ metric_code := "m", scope := "factory", aggregation := "latest" }]
        janFebPeriodTable "factory" "year" janFebPeriodTable =
      ([⟨"factory", 1, 3, "m", none, none, none⟩],
       janFebPeriodTable ++ [(3, ⟨12, 4, 2024⟩)]) ∧
    (some (5 : ℚ) ≠ (none : Option ℚ)) := by
  constructor
  · simp +decide [rollupResults, buildGroups, insertGroup, lookupPeriod,
      lookupMetricDef, rollupAgg, aggregateValues, maxByMonth,
      resolveRollupPeriod, getOrCreatePeriod, findPeriodKey, maxPeriodKey,
      lowerString, lowerChar, janFebPeriodTable]
  · simp

/-- C9 (amended): for a latest-aggregated metric the rollup value is the
value of the greatest-numbered month among *all* of the group's monthly
entries (null-valued entries included), hence null when that entry's value
is null; with no non-null monthly values the rollup value is null; every
rollup row's value is the aggregation of exactly the run's monthly rows
contributing to its group, and a row is emitted for every group whose
metric is configured — even when its value is null. -/
theorem C9_latest_takes_greatest_month_of_all_entries :
    (∀ (method : String) (v : ℚ) (vs : List ℚ) (e : MonthEntry)
        (rest : List MonthEntry),
        lowerString (if method = "" then "sum" else method) = "latest" →
        aggregateValues (v :: vs) (e :: rest) method =
          (maxByMonth e rest).value) ∧
    (∀ (method : String) (vwm : List MonthEntry),
        aggregateValues [] vwm method = none) ∧
    (∀ (monthly : List ResultRow) (metric_defs : List MetricDefinition)
        (pidx tbl : PeriodTable) (scope level : String) (row : ResultRow),
        row ∈ (rollupResults monthly metric_defs pidx scope level tbl).1 →
        ∃ key values metric,
          lookupMetricDef metric_defs key.metric_code = some metric ∧
          values = monthly.filterMap (groupContribution pidx scope level key) ∧
          values ≠ [] ∧
          row.scope = scope ∧ row.scope_id = key.scope_id ∧
          row.metric_code = key.metric_code ∧
          row.value = aggregateValues (values.filterMap (·.value)) values
            metric.aggregation) ∧
    (∀ (monthly : List ResultRow) (metric_defs : List MetricDefinition)
        (pidx tbl : PeriodTable) (scope level : String) (key : RollupKey)
        (values : List MonthEntry) (metric : MetricDefinition),
        (level = "quarter" ∨ level = "year") →
        (key, values) ∈ buildGroups pidx scope level monthly [] →
        lookupMetricDef metric_defs key.metric_code = some metric →
        ∃ row ∈ (rollupResults monthly metric_defs pidx scope level tbl).1,
          row.scope = scope ∧
          row.scope_id = key.scope_id ∧ row.metric_code = key.metric_code ∧
          row.value = aggregateValues (values.filterMap (·.value)) values
            metric.aggregation) := by
  refine ⟨?_, ?_, ?_, ?_⟩
  · intro method v vs e rest hm
    simp only [aggregateValues]
    rw [hm]
    simp +decide
  · intro method vwm
    rfl
  · intro monthly metric_defs pidx tbl scope level row hrow
    rw [rollupResults] at hrow
    by_cases hlv : level = "quarter" ∨ level = "year"
    · rw [if_pos hlv] at hrow
      obtain ⟨key, values, metric, hmem, hmd, hprops⟩ :=
        rollupAgg_mem metric_defs scope level _ _ _ hrow
      have hnd := nodup_groupKeys_buildGroups pidx scope level monthly []
        (by simp [groupKeys])
      have hlk := lookupGroup_eq_some_of_mem hnd hmem
      rw [lookupGroup_buildGroups] at hlk
      simp only [lookupGroup] at hlk
      cases hc : monthly.filterMap (groupContribution pidx scope level key) with
      | nil => rw [hc] at hlk; exact absurd hlk (by simp)
      | cons c cs =>
          rw [hc] at hlk
          simp only [Option.some.injEq] at hlk
          exact ⟨key, values, metric, hmd, by rw [hc, ← hlk],
            by rw [← hlk]; simp, hprops.1, hprops.2.1, hprops.2.2.1,
            hprops.2.2.2.1⟩
    · rw [if_neg hlv] at hrow
      simp at hrow
  · intro monthly metric_defs pidx tbl scope level key values metric hlv
      hmem hmd
    rw [rollupResults, if_pos hlv]
    exact rollupAgg_emits metric_defs scope level _ tbl key values metric
      hmem hmd

/-- Witness for the amended C9: the latest aggregation applied to the
counterexample group (January = 5, February = null) — the theorem's first
component pinpoints February and the rollup value is null. -/
theorem C9_latest_witness :
    aggregateValues [5] [⟨1, some 5, none⟩, ⟨2, none, none⟩] "latest" =
      none := by
  have h := C9_latest_takes_greatest_month_of_all_entries.1 "latest" 5 []
    ⟨1, some 5, none⟩ [⟨2, none, none⟩] (by decide)
  rw [h]
  decide


/-- C1 (counterexample): the formula `abs(1)` — whose only identifier `abs`
resolves in neither the variable context (empty) nor the registered function
table (empty) — is nevertheless evaluated to the value 1: `eval` with empty
globals resolves `abs` in Python's injected builtin namespace.  This refutes
"evaluated to a value only when every identifier occurring in it resolves in
the variable context or the registered function table". -/
theorem C1_builtin_identifier_evaluates_without_resolving :
    evaluateMetric [] absCallMetric [] = some 1 ∧
    "abs" ∈ exprNames (.call (.name "abs") (.cons (.const 1) .nil)) ∧
    lookupCtx [] "abs" = none ∧
    lookupFn ([] : FunctionMap) "abs" = none := by
  refine ⟨?_, by decide, rfl, rfl⟩
  simp +decide [evaluateMetric, absCallMetric, absCallFormula, lookupFn,
    pyEval, pyEvalArgs, lookupCtx, builtinNames, astAllowed, argsAllowed,
    applyCall, Except.instMonad, Except.bind, Except.map]

/-- C1 (amended): when a formula is not itself a registered-function key, it
is evaluated to a value only when it parses to a tree within the restricted
grammar whose every identifier resolves in the variable context *or in
Python's builtin namespace* (the registered function table's names are not
visible to expression evaluation); and any formula containing a construct
outside the restricted grammar yields no value. -/
theorem C1_value_requires_resolvable_identifiers :
    (∀ (fm : FunctionMap) (m : MetricDefinition) (context : Ctx) (v : ℚ)
        (f : PyFormula),
        m.formula = some f → lookupFn fm f.raw = none →
        evaluateMetric fm m context = some v →
        ∃ e, f.ast = some e ∧ astAllowed e = true ∧
          ∀ n ∈ exprNames e,
            (lookupCtx context n).isSome ∨ n ∈ builtinNames) ∧
    (∀ (fm : FunctionMap) (m : MetricDefinition) (context : Ctx)
        (f : PyFormula) (e : PyExpr),
        m.formula = some f → lookupFn fm f.raw = none →
        f.ast = some e → astAllowed e = false →
        evaluateMetric fm m context = none) := by
  constructor
  · intro fm m context v f hf hfn hval
    rw [evaluateMetric] at hval
    cases hast : f.ast with
    | none => simp [hf, hfn, hast] at hval
    | some tree =>
        simp only [hf, hfn, hast] at hval
        by_cases hall : astAllowed tree
        · refine ⟨tree, rfl, hall, ?_⟩
          simp only [hall, if_true] at hval
          cases hev : pyEval context tree with
          | error err => simp [hev] at hval
          | ok pv => exact fun n hn => pyEval_ok_names context tree pv hev n hn
        · simp [hall] at hval
  · intro fm m context f e hf hfn hast hall
    rw [evaluateMetric]
    simp [hf, hfn, hast, hall]

/-- Witness for the amended C1: `total = revenue - cost` over
{revenue: 100, cost: 40} evaluates to 60, and the theorem recovers that its
tree is allowed and both identifiers resolve in the context. -/
theorem C1_resolvable_identifiers_witness :
    ∃ e, totalFormula.ast = some e ∧ astAllowed e = true ∧
      ∀ n ∈ exprNames e,
        (lookupCtx [("revenue", 100), ("cost", 40)] n).isSome ∨
          n ∈ builtinNames := by
  refine C1_value_requires_resolvable_identifiers.1 [] totalMetric
    [("revenue", 100), ("cost", 40)] 60 totalFormula rfl rfl ?_
  simp +decide [evaluateMetric, totalMetric, totalFormula, lookupFn, pyEval,
    lookupCtx, astAllowed, applyBOp, Except.instMonad, Except.bind,
    Except.map]
  norm_num

/-- C4: metric evaluation converts every fault to a null value instead of
raising — (i) any `eval`-time fault (missing identifier, arithmetic error
such as division by zero) yields `None`; (ii) a result Python's `float()`
rejects yields `None`; (iii) disallowed syntax yields `None`; (iv) a parse
failure yields `None`; (v) a raising registered function yields `None`.
`evaluateMetric` is `Option`-valued because `_evaluate_metric` catches every
exception in its guarded region. -/
theorem C4_evaluator_faults_become_null :
    (∀ (fm : FunctionMap) (m : MetricDefinition) (context : Ctx)
        (f : PyFormula) (e : PyExpr) (err : PyErr),
        m.formula = some f → lookupFn fm f.raw = none → f.ast = some e →
        pyEval context e = .error err →
        evaluateMetric fm m context = none) ∧
    (∀ (fm : FunctionMap) (m : MetricDefinition) (context : Ctx)
        (f : PyFormula) (e : PyExpr) (b : String),
        m.formula = some f → lookupFn fm f.raw = none → f.ast = some e →
        pyEval context e = .ok (.builtin b) →
        evaluateMetric fm m context = none) ∧
    (∀ (fm : FunctionMap) (m : MetricDefinition) (context : Ctx)
        (f : PyFormula) (e : PyExpr),
        m.formula = some f → lookupFn fm f.raw = none → f.ast = some e →
        astAllowed e = false → evaluateMetric fm m context = none) ∧
    (∀ (fm : FunctionMap) (m : MetricDefinition) (context : Ctx)
        (f : PyFormula),
        m.formula = some f → lookupFn fm f.raw = none → f.ast = none →
        evaluateMetric fm m context = none) ∧
    (∀ (fm : FunctionMap) (m : MetricDefinition) (context : Ctx)
        (f : PyFormula) (fn : Ctx → Except PyErr ℚ) (err : PyErr),
        m.formula = some f → lookupFn fm f.raw = some fn →
        fn context = .error err → evaluateMetric fm m context = none) := by
  refine ⟨?_, ?_, ?_, ?_, ?_⟩
  · intro fm m context f e err hf hfn hast hev
    rw [evaluateMetric]
    by_cases hall : astAllowed e
    · simp [hf, hfn, hast, hall, hev]
    · simp [hf, hfn, hast, hall]
  · intro fm m context f e b hf hfn hast hev
    rw [evaluateMetric]
    by_cases hall : astAllowed e
    · simp [hf, hfn, hast, hall, hev]
    · simp [hf, hfn, hast, hall]
  · intro fm m context f e hf hfn hast hall
    rw [evaluateMetric]
    simp [hf, hfn, hast, hall]
  · intro fm m context f hf hfn hast
    rw [evaluateMetric]
    simp [hf, hfn, hast]
  · intro fm m context f fn err hf hfn herr
    rw [evaluateMetric]
    simp [hf, hfn, herr]

/-- Witness for C4: the spec's example — `efficiency = output/hours` over
{output: 80, hours: 0} raises `ZeroDivisionError` inside `eval`, which the
evaluator converts to a null metric value, no exception escaping. -/
theorem C4_division_by_zero_witness :
    evaluateMetric [] efficiencyMetric [("output", 80), ("hours", 0)] =
      none := by
  refine C4_evaluator_faults_become_null.1 [] efficiencyMetric
    [("output", 80), ("hours", 0)] efficiencyFormula
    (.binOp .div (.name "output") (.name "hours")) .zeroDivisionError
    rfl rfl rfl ?_
  simp +decide [pyEval, lookupCtx, applyBOp, Except.instMonad, Except.bind,
    Except.map]


/-- C8: dependency resolution terminates within at most `max N 1` full
passes of the metric list (the loop result always equals some `k ≤ max N 1`
iterated passes over the configuration-ordered list); a pass with zero
progress stops resolution early; a resolved metric — even one recorded with
a null value — is never changed by a later pass; a metric whose
dependencies are ready (all free variables of its formula present in the
running context or in the function table, or no formula at all) is resolved
by the pass that visits it; and when every configured formula parses,
resolution surfaces no error and the output simply omits the unresolvable
metrics (every computed entry is one of the configured codes). -/
theorem C8_resolution_terminates_within_bounded_passes :
    (∀ (fm : FunctionMap) (metric_defs : List MetricDefinition) (base : Ctx),
        ∃ k ≤ max metric_defs.length 1,
          evaluateMetrics fm metric_defs base =
            (runPasses fm metric_defs k ⟨[], base⟩).map (·.computed)) ∧
    (∀ (fm : FunctionMap) (metric_defs : List MetricDefinition) (fuel : Nat)
        (st st' : ResolveState),
        passMetrics fm metric_defs st false = .ok (st', false) →
        resolveLoop fm metric_defs (fuel + 1) st = .ok st') ∧
    (∀ (fm : FunctionMap) (metric_defs : List MetricDefinition)
        (st : ResolveState) (p : Bool) (st' : ResolveState) (p' : Bool),
        passMetrics fm metric_defs st p = .ok (st', p') →
        ∀ code v, lookupComputed st.computed code = some v →
          lookupComputed st'.computed code = some v) ∧
    (∀ (fm : FunctionMap) (metric_defs : List MetricDefinition)
        (st : ResolveState) (p : Bool) (st' : ResolveState) (p' : Bool)
        (metric : MetricDefinition),
        metric ∈ metric_defs →
        passMetrics fm metric_defs st p = .ok (st', p') →
        dependenciesReady fm metric st.context = .ok true →
        (lookupComputed st'.computed metric.metric_code).isSome) ∧
    (∀ (fm : FunctionMap) (metric_defs : List MetricDefinition) (base : Ctx),
        (∀ m ∈ metric_defs, m.formula = none ∨
          ∃ f e, m.formula = some f ∧ f.ast = some e) →
        ∃ computed, evaluateMetrics fm metric_defs base = .ok computed ∧
          ∀ code, (lookupComputed computed code).isSome →
            code ∈ metric_defs.map (·.metric_code)) := by
  refine ⟨?_, ?_, ?_, ?_, ?_⟩
  · intro fm metric_defs base
    obtain ⟨k, hk, heq⟩ := resolveLoop_eq_runPasses fm metric_defs
      (max metric_defs.length 1) ⟨[], base⟩
    exact ⟨k, hk, by rw [evaluateMetrics, heq]⟩
  · intro fm metric_defs fuel st st' hp
    rw [resolveLoop, hp]
    simp [Except.instMonad, Except.bind]
  · intro fm metric_defs st p st' p' h
    exact passMetrics_preserves_computed fm metric_defs st p st' p' h
  · intro fm metric_defs st p st' p' metric hmem h hrdy
    exact passMetrics_resolves_ready fm metric_defs st p st' p' metric
      hmem h hrdy
  · intro fm metric_defs base hparse
    obtain ⟨st', hst'⟩ := resolveLoop_ok_of_parseable fm metric_defs hparse
      (max metric_defs.length 1) ⟨[], base⟩
    refine ⟨st'.computed, by rw [evaluateMetrics, hst']; rfl, ?_⟩
    intro code hc
    obtain ⟨k, hk, heq⟩ := resolveLoop_eq_runPasses fm metric_defs
      (max metric_defs.length 1) ⟨[], base⟩
    have hcodes : ∀ (j : Nat) (st0 st1 : ResolveState),
        runPasses fm metric_defs j st0 = .ok st1 →
        ∀ c, (lookupComputed st1.computed c).isSome →
          (lookupComputed st0.computed c).isSome ∨
            c ∈ metric_defs.map (·.metric_code) := by
      intro j
      induction j with
      | zero =>
          intro st0 st1 hrun c hcc
          rw [runPasses] at hrun
          injection hrun with hrun
          rw [← hrun] at hcc
          exact Or.inl hcc
      | succ n ih =>
          intro st0 st1 hrun c hcc
          rw [runPasses] at hrun
          cases hp : passMetrics fm metric_defs st0 false with
          | error e => rw [hp] at hrun; cases hrun
          | ok out =>
              obtain ⟨stm, pm⟩ := out
              rw [hp] at hrun
              simp only [Except.instMonad, Except.bind] at hrun
              rcases ih stm st1 hrun c hcc with hin | hin
              · exact passMetrics_codes fm metric_defs st0 false stm pm hp
                  c hin
              · exact Or.inr hin
    rw [hst'] at heq
    rcases hcodes k ⟨[], base⟩ st' heq.symm code hc with hin | hin
    · simp [lookupComputed] at hin
    · exact hin

/-- Witness for C8: the cyclic configuration `a = b + 1`, `b = a + 1` —
both formulas parse, resolution returns without error, and every computed
entry (here there are none: the cycle never becomes ready) is a configured
code. -/
theorem C8_cyclic_metrics_witness :
    ∃ computed, evaluateMetrics [] cyclicDefs [] = .ok computed ∧
      ∀ code, (lookupComputed computed code).isSome →
        code ∈ cyclicDefs.map (·.metric_code) := by
  refine C8_resolution_terminates_within_bounded_passes.2.2.2.2 []
    cyclicDefs [] ?_
  intro m hm
  rcases List.mem_cons.mp hm with heq | hm2
  · subst heq
    exact Or.inr ⟨_, _, rfl, rfl⟩
  · rcases List.mem_cons.mp hm2 with heq | hm3
    · subst heq
      exact Or.inr ⟨_, _, rfl, rfl⟩
    · simp at hm3


/-- C5 (counterexample): `run_batch` on an unknown batch id, and on a batch
whose dataset is outside the fixed map — both raise before the `try` block,
so the batch record keeps its prior status: no failed-status update happens,
contradicting "the exception propagates ... after a failed-status update". -/
theorem C5_fatal_paths_leave_status_untouched :
    runBatch [(1, "operations")] [(1, "processing")] [] passThroughNorm
        passThroughNorm [] [] 2 =
      ⟨.fatalNotFound, [(1, "processing")], [], [], []⟩ ∧
    runBatch [(1, "parts_sales")] [(1, "processing")] [] passThroughNorm
        passThroughNorm [] [] 1 =
      ⟨.fatalUnsupportedDataset, [(1, "processing")], [], [], []⟩ ∧
    ("processing" : String) ≠ "failed" := by
  refine ⟨by decide, by decide, by decide⟩

/-- C5 (amended): for an unknown batch id or an unsupported dataset,
`run_batch` processes no staging rows, records no issues, loads no facts,
raises to the caller — and performs *no* status update of the batch record
(the failed-status update lives in the `except` handler of the processing
block, which these two raises never enter). -/
theorem C5_fatal_paths_propagate_without_writes :
    ∀ (batches statuses : List (Int × String)) (thresholds : Ctx)
      (nf ne : Option JValue → Option String)
      (ops kpi : List StagingRow) (batch_id : Int),
      (lookupBatch batches batch_id = none →
        runBatch batches statuses thresholds nf ne ops kpi batch_id =
          ⟨.fatalNotFound, statuses, [], [], []⟩) ∧
      (∀ ds, lookupBatch batches batch_id = some ds →
        ds ≠ "operations" → ds ≠ "kpi" →
        runBatch batches statuses thresholds nf ne ops kpi batch_id =
          ⟨.fatalUnsupportedDataset, statuses, [], [], []⟩) := by
  intro batches statuses thresholds nf ne ops kpi batch_id
  constructor
  · intro h
    rw [runBatch, h]
  · intro ds h h1 h2
    rw [runBatch, h]
    simp [h1, h2]

/-- Witness for the amended C5: both fatal kinds at concrete inputs. -/
theorem C5_fatal_paths_witness :
    runBatch [(1, "operations")] [(1, "processing")] [] passThroughNorm
        passThroughNorm [] [] 7 =
      ⟨.fatalNotFound, [(1, "processing")], [], [], []⟩ ∧
    runBatch [(2, "parts_sales")] [(2, "processing")] [] passThroughNorm
        passThroughNorm [] [] 2 =
      ⟨.fatalUnsupportedDataset, [(2, "processing")], [], [], []⟩ :=
  ⟨(C5_fatal_paths_propagate_without_writes [(1, "operations")]
      [(1, "processing")] [] passThroughNorm passThroughNorm [] [] 7).1
      (by decide),
   (C5_fatal_paths_propagate_without_writes [(2, "parts_sales")]
      [(2, "processing")] [] passThroughNorm passThroughNorm [] [] 2).2
      "parts_sales" (by decide) (by decide) (by decide)⟩


/-! ## Lemmas about the cleansing pipelines -/

theorem opGate_accept_spec (thr : Ctx) (rn : Int) (key : String × Int × Int)
    (ms : List (String × ℚ)) (pI : List Issue) (k : String × Int × Int)
    (rec : OpRecord) (iss : List Issue) (dq : Nat)
    (h : opGate thr rn key ms pI = .accept k rec iss dq) :
    opKey rec = k ∧ k = key := by
  rw [opGate] at h
  cases ha : anomalousMetrics thr ms with
  | nil =>
      rw [ha] at h
      injection h with h1 h2 h3 h4
      subst h1
      subst h2
      simp [opKey]
  | cons a as_ =>
      rw [ha] at h
      simp at h

theorem opVerdict_accept_spec (thr : Ctx)
    (nf : Option JValue → Option String) (seen : List (String × Int × Int))
    (row : StagingRow) (k : String × Int × Int) (rec : OpRecord)
    (iss : List Issue) (dq : Nat)
    (h : opVerdict thr nf seen row = .accept k rec iss dq) :
    opKey rec = k ∧ k ∉ seen := by
  rw [opVerdict] at h
  cases hd : row.data with
  | none => rw [hd] at h; simp at h
  | some raw =>
      rw [hd] at h
      dsimp only at h
      by_cases hmiss : requiredMissing raw ["factory_code", "date"] ≠ []
      · rw [if_pos hmiss] at h; simp at h
      · rw [if_neg hmiss] at h
        cases hdate : (lookupRaw raw "date").bind parsePeriodJ with
        | none => rw [hdate] at h; simp at h
        | some ym =>
            obtain ⟨year, month⟩ := ym
            rw [hdate] at h
            dsimp only at h
            cases hnf : nf (lookupRaw raw "factory_code") with
            | none => rw [hnf] at h; simp at h
            | some fc =>
                rw [hnf] at h
                dsimp only at h
                by_cases hfc : fc = ""
                · rw [if_pos hfc] at h; simp at h
                · rw [if_neg hfc] at h
                  by_cases hseen : (fc, year, month) ∈ seen
                  · rw [if_pos hseen] at h; simp at h
                  · rw [if_neg hseen] at h
                    cases hext :
                        (extractFixedMetrics raw row.row_number opFields).1 with
                    | cons m msr =>
                        rw [hext] at h
                        obtain ⟨hk, hkey⟩ := opGate_accept_spec _ _ _ _ _ _ _
                          _ _ h
                        subst hkey
                        exact ⟨hk, hseen⟩
                    | nil =>
                        rw [hext] at h
                        dsimp only at h
                        by_cases hcond : ((match lookupRaw raw "indicator" with
                            | some iv => truthyJ iv
                            | none => false) &&
                            (lookupRaw raw "value").isSome) = true
                        · rw [if_pos hcond] at h
                          cases hiv : lookupRaw raw "indicator" with
                          | none => rw [hiv] at h; simp at h
                          | some iv =>
                              cases hvv : lookupRaw raw "value" with
                              | none => rw [hiv, hvv] at h; simp at h
                              | some vv =>
                                  rw [hiv, hvv] at h
                                  dsimp only at h
                                  cases hq : floatOfJ vv with
                                  | none => rw [hq] at h; simp at h
                                  | some q =>
                                      rw [hq] at h
                                      obtain ⟨hk, hkey⟩ :=
                                        opGate_accept_spec _ _ _ _ _ _ _ _ _ h
                                      subst hkey
                                      exact ⟨hk, hseen⟩
                        · rw [if_neg hcond] at h
                          simp at h

theorem opVerdict_duplicate_spec (thr : Ctx)
    (nf : Option JValue → Option String) (seen : List (String × Int × Int))
    (row : StagingRow) (k : String × Int × Int)
    (hk : opRowKey nf row = some k) (hmem : k ∈ seen) :
    opVerdict thr nf seen row =
      .reject [⟨some row.row_number, "duplicate_key",
        "duplicate factory+period combination"⟩] 1 := by
  rw [opRowKey] at hk
  rw [opVerdict]
  cases hd : row.data with
  | none => rw [hd] at hk; cases hk
  | some raw =>
      try rw [hd] at hk
      try rw [hd]
      dsimp only at hk ⊢
      by_cases hmiss : requiredMissing raw ["factory_code", "date"] ≠ []
      · rw [if_pos hmiss] at hk; cases hk
      · rw [if_neg hmiss] at hk ⊢
        cases hdate : (lookupRaw raw "date").bind parsePeriodJ with
        | none => (try rw [hdate] at hk); cases hk
        | some ym =>
            obtain ⟨year, month⟩ := ym
            try rw [hdate] at hk
            try rw [hdate]
            dsimp only at hk ⊢
            cases hnf : nf (lookupRaw raw "factory_code") with
            | none => (try rw [hnf] at hk); cases hk
            | some fc =>
                try rw [hnf] at hk
                try rw [hnf]
                dsimp only at hk ⊢
                by_cases hfc : fc = ""
                · rw [if_pos hfc] at hk; cases hk
                · rw [if_neg hfc] at hk ⊢
                  injection hk with hk
                  subst hk
                  rw [if_pos hmem]

theorem kpiVerdict_accept_spec (thr : Ctx)
    (ne nf : Option JValue → Option String)
    (seen : List (String × Int × Int × String)) (row : StagingRow)
    (k : String × Int × Int × String) (rec : KpiRecord) (iss : List Issue)
    (dq : Nat)
    (h : kpiVerdict thr ne nf seen row = .accept k rec iss dq) :
    kpiRecKey rec = k ∧ k ∉ seen := by
  rw [kpiVerdict] at h
  cases hd : row.data with
  | none => rw [hd] at h; simp at h
  | some raw =>
      rw [hd] at h
      dsimp only at h
      by_cases hmiss :
          requiredMissing raw ["employee_id", "indicator", "value", "date"]
            ≠ []
      · rw [if_pos hmiss] at h; simp at h
      · rw [if_neg hmiss] at h
        cases hdate : (lookupRaw raw "date").bind parsePeriodJ with
        | none => rw [hdate] at h; simp at h
        | some ym =>
            obtain ⟨year, month⟩ := ym
            rw [hdate] at h
            dsimp only at h
            cases hne : ne (lookupRaw raw "employee_id") with
            | none => rw [hne] at h; simp at h
            | some emp =>
                rw [hne] at h
                dsimp only at h
                by_cases hemp : emp = ""
                · rw [if_pos hemp] at h; simp at h
                · rw [if_neg hemp] at h
                  by_cases hseen :
                      (emp, year, month, lowerString (kpiMetricCode raw))
                        ∈ seen
                  · rw [if_pos hseen] at h; simp at h
                  · rw [if_neg hseen] at h
                    cases hv : (lookupRaw raw "value").bind floatOfJ with
                    | none => rw [hv] at h; simp at h
                    | some value =>
                        rw [hv] at h
                        dsimp only at h
                        by_cases hanom : |value| >
                            (lookupCtx thr
                              (lowerString (kpiMetricCode raw))).getD
                              DEFAULT_ANOMALY_THRESHOLD
                        · rw [if_pos hanom] at h; simp at h
                        · rw [if_neg hanom] at h
                          injection h with h1 h2 h3 h4
                          subst h1
                          subst h2
                          exact ⟨rfl, hseen⟩

theorem kpiVerdict_duplicate_spec (thr : Ctx)
    (ne nf : Option JValue → Option String)
    (seen : List (String × Int × Int × String)) (row : StagingRow)
    (k : String × Int × Int × String)
    (hk : kpiRowKey ne row = some k) (hmem : k ∈ seen) :
    kpiVerdict thr ne nf seen row =
      .reject [⟨some row.row_number, "duplicate_key",
        "duplicate employee+period+metric combination"⟩] 1 := by
  rw [kpiRowKey] at hk
  rw [kpiVerdict]
  cases hd : row.data with
  | none => rw [hd] at hk; cases hk
  | some raw =>
      try rw [hd] at hk
      try rw [hd]
      dsimp only at hk ⊢
      by_cases hmiss :
          requiredMissing raw ["employee_id", "indicator", "value", "date"]
            ≠ []
      · rw [if_pos hmiss] at hk; cases hk
      · rw [if_neg hmiss] at hk ⊢
        cases hdate : (lookupRaw raw "date").bind parsePeriodJ with
        | none => (try rw [hdate] at hk); cases hk
        | some ym =>
            obtain ⟨year, month⟩ := ym
            try rw [hdate] at hk
            try rw [hdate]
            dsimp only at hk ⊢
            cases hne : ne (lookupRaw raw "employee_id") with
            | none => (try rw [hne] at hk); cases hk
            | some emp =>
                try rw [hne] at hk
                try rw [hne]
                dsimp only at hk ⊢
                by_cases hemp : emp = ""
                · rw [if_pos hemp] at hk; cases hk
                · rw [if_neg hemp] at hk ⊢
                  injection hk with hk
                  subst hk
                  rw [if_pos hmem]


theorem opStep_inv (thr : Ctx) (nf : Option JValue → Option String)
    (st : OpState) (row : StagingRow)
    (h1 : (st.valid_records.map opKey).Nodup)
    (h2 : ∀ r ∈ st.valid_records, opKey r ∈ st.seen_keys) :
    (((opStep thr nf st row).valid_records.map opKey).Nodup ∧
     ∀ r ∈ (opStep thr nf st row).valid_records,
       opKey r ∈ (opStep thr nf st row).seen_keys) := by
  rw [opStep]
  cases hv : opVerdict thr nf st.seen_keys row with
  | reject iss dq => exact ⟨h1, h2⟩
  | rejectKeyed k iss dq =>
      refine ⟨h1, ?_⟩
      intro r hr
      exact List.mem_append.mpr (Or.inl (h2 r hr))
  | accept k rec iss dq =>
      obtain ⟨hkey, hnotin⟩ := opVerdict_accept_spec _ _ _ _ _ _ _ _ hv
      constructor
      · rw [List.map_append]
        refine List.Nodup.append h1 (List.nodup_singleton _) ?_
        intro a ha hb
        simp only [List.map_cons, List.map_nil, List.mem_singleton] at hb
        subst hb
        obtain ⟨r, hr, hkr⟩ := List.mem_map.mp ha
        have hmem := h2 r hr
        rw [hkr, hkey] at hmem
        exact hnotin hmem
      · intro r hr
        rcases List.mem_append.mp hr with hold | hnew
        · exact List.mem_append.mpr (Or.inl (h2 r hold))
        · rw [List.mem_singleton] at hnew
          subst hnew
          rw [hkey]
          exact List.mem_append.mpr (Or.inr (List.mem_singleton.mpr rfl))

theorem processOperations_inv (thr : Ctx)
    (nf : Option JValue → Option String) :
    ∀ (rows : List StagingRow) (st : OpState),
      (st.valid_records.map opKey).Nodup →
      (∀ r ∈ st.valid_records, opKey r ∈ st.seen_keys) →
      (((rows.foldl (opStep thr nf) st).valid_records.map opKey).Nodup ∧
       ∀ r ∈ (rows.foldl (opStep thr nf) st).valid_records,
         opKey r ∈ (rows.foldl (opStep thr nf) st).seen_keys) := by
  intro rows
  induction rows with
  | nil => exact fun st h1 h2 => ⟨h1, h2⟩
  | cons row rest ih =>
      intro st h1 h2
      rw [List.foldl_cons]
      obtain ⟨h1', h2'⟩ := opStep_inv thr nf st row h1 h2
      exact ih _ h1' h2'

theorem kpiStep_inv (thr : Ctx) (ne nf : Option JValue → Option String)
    (st : KpiState) (row : StagingRow)
    (h1 : (st.valid_records.map kpiRecKey).Nodup)
    (h2 : ∀ r ∈ st.valid_records, kpiRecKey r ∈ st.seen_keys) :
    (((kpiStep thr ne nf st row).valid_records.map kpiRecKey).Nodup ∧
     ∀ r ∈ (kpiStep thr ne nf st row).valid_records,
       kpiRecKey r ∈ (kpiStep thr ne nf st row).seen_keys) := by
  rw [kpiStep]
  cases hv : kpiVerdict thr ne nf st.seen_keys row with
  | reject iss dq => exact ⟨h1, h2⟩
  | rejectKeyed k iss dq =>
      refine ⟨h1, ?_⟩
      intro r hr
      exact List.mem_append.mpr (Or.inl (h2 r hr))
  | accept k rec iss dq =>
      obtain ⟨hkey, hnotin⟩ := kpiVerdict_accept_spec _ _ _ _ _ _ _ _ _ hv
      constructor
      · rw [List.map_append]
        refine List.Nodup.append h1 (List.nodup_singleton _) ?_
        intro a ha hb
        simp only [List.map_cons, List.map_nil, List.mem_singleton] at hb
        subst hb
        obtain ⟨r, hr, hkr⟩ := List.mem_map.mp ha
        have hmem := h2 r hr
        rw [hkr, hkey] at hmem
        exact hnotin hmem
      · intro r hr
        rcases List.mem_append.mp hr with hold | hnew
        · exact List.mem_append.mpr (Or.inl (h2 r hold))
        · rw [List.mem_singleton] at hnew
          subst hnew
          rw [hkey]
          exact List.mem_append.mpr (Or.inr (List.mem_singleton.mpr rfl))

theorem processKpi_inv (thr : Ctx) (ne nf : Option JValue → Option String) :
    ∀ (rows : List StagingRow) (st : KpiState),
      (st.valid_records.map kpiRecKey).Nodup →
      (∀ r ∈ st.valid_records, kpiRecKey r ∈ st.seen_keys) →
      (((rows.foldl (kpiStep thr ne nf) st).valid_records.map
          kpiRecKey).Nodup ∧
       ∀ r ∈ (rows.foldl (kpiStep thr ne nf) st).valid_records,
         kpiRecKey r ∈ (rows.foldl (kpiStep thr ne nf) st).seen_keys) := by
  intro rows
  induction rows with
  | nil => exact fun st h1 h2 => ⟨h1, h2⟩
  | cons row rest ih =>
      intro st h1 h2
      rw [List.foldl_cons]
      obtain ⟨h1', h2'⟩ := kpiStep_inv thr ne nf st row h1 h2
      exact ih _ h1' h2'


theorem processOperations_nodup (thr : Ctx)
    (nf : Option JValue → Option String) (rows : List StagingRow) :
    ((processOperations thr nf rows).valid_records.map opKey).Nodup := by
  have h := (processOperations_inv thr nf rows ⟨[], [], [], 0⟩ (by simp)
    (by simp)).1
  rw [processOperations]
  exact h

theorem processKpi_nodup (thr : Ctx) (ne nf : Option JValue → Option String)
    (rows : List StagingRow) :
    ((processKpi thr ne nf rows).valid_records.map kpiRecKey).Nodup := by
  have h := (processKpi_inv (thr.map fun p => (lowerString p.1, p.2)) ne nf
    rows ⟨[], [], [], 0⟩ (by simp) (by simp)).1
  rw [processKpi]
  exact h

set_option maxHeartbeats 1600000 in
/-- C6: within a single batch no two accepted records share a dedup key —
`(factoryCode, year, month)` for operations rows and
`(employeeId, year, month, lower(metricCode))` for KPI rows — and any row
that reaches the dedup check with a key already seen (the first occurrence
in read order claimed it) is rejected with exactly a `duplicate_key` issue. -/
theorem C6_no_two_accepted_records_share_a_dedup_key :
    (∀ (thr : Ctx) (nf : Option JValue → Option String)
        (rows : List StagingRow),
        ((processOperations thr nf rows).valid_records.map opKey).Nodup) ∧
    (∀ (thr : Ctx) (nf : Option JValue → Option String)
        (seen : List (String × Int × Int)) (row : StagingRow)
        (k : String × Int × Int),
        opRowKey nf row = some k → k ∈ seen →
        opVerdict thr nf seen row =
          .reject [⟨some row.row_number, "duplicate_key",
            "duplicate factory+period combination"⟩] 1) ∧
    (∀ (thr : Ctx) (ne nf : Option JValue → Option String)
        (rows : List StagingRow),
        ((processKpi thr ne nf rows).valid_records.map kpiRecKey).Nodup) ∧
    (∀ (thr : Ctx) (ne nf : Option JValue → Option String)
        (seen : List (String × Int × Int × String)) (row : StagingRow)
        (k : String × Int × Int × String),
        kpiRowKey ne row = some k → k ∈ seen →
        kpiVerdict thr ne nf seen row =
          .reject [⟨some row.row_number, "duplicate_key",
            "duplicate employee+period+metric combination"⟩] 1) := by
  refine ⟨?_, ?_, ?_, ?_⟩
  · intro thr nf rows
    exact processOperations_nodup thr nf rows
  · intro thr nf seen row k hk hmem
    exact opVerdict_duplicate_spec thr nf seen row k hk hmem
  · intro thr ne nf rows
    exact processKpi_nodup thr ne nf rows
  · intro thr ne nf seen row k hk hmem
    exact kpiVerdict_duplicate_spec thr ne nf seen row k hk hmem

set_option maxHeartbeats 1600000 in
/-- Witness for C6: the spec's dedup example — a second F1 row dated
2024-01-20, colliding with the key (F1, 2024, 1) claimed by the 2024-01-05
row, is rejected with a `duplicate_key` issue. -/
theorem C6_duplicate_key_witness :
    opVerdict [] passThroughNorm [("F1", 2024, 1)] dupRow =
      .reject [⟨some 2, "duplicate_key",
        "duplicate factory+period combination"⟩] 1 :=
  C6_no_two_accepted_records_share_a_dedup_key.2.1 [] passThroughNorm
    [("F1", 2024, 1)] dupRow ("F1", 2024, 1) (by decide) (by decide)

/-- C7: an operations row any of whose extracted metrics exceeds its
threshold by absolute value is wholly rejected — one `anomaly` issue per
exceedance, in-range metrics discarded with the row, the dedup key still
consumed, and nothing added to the accepted records. -/
theorem C7_anomalous_row_rejected_with_issue_per_exceedance :
    (∀ (thr : Ctx) (nf : Option JValue → Option String)
        (seen : List (String × Int × Int)) (row : StagingRow)
        (raw : RawData) (k : String × Int × Int) (m : String × ℚ)
        (ms : List (String × ℚ)) (iss : List Issue) (a : String × ℚ × ℚ)
        (as_ : List (String × ℚ × ℚ)),
        row.data = some raw →
        opRowKey nf row = some k → k ∉ seen →
        extractFixedMetrics raw row.row_number opFields = (m :: ms, iss) →
        anomalousMetrics thr (m :: ms) = a :: as_ →
        opVerdict thr nf seen row =
          .rejectKeyed k
            (iss ++ (a :: as_).map (anomalyIssue row.row_number))
            (iss.length + (a :: as_).length)) ∧
    (∀ (thr : Ctx) (nf : Option JValue → Option String) (st : OpState)
        (row : StagingRow) (k : String × Int × Int) (issues : List Issue)
        (dq : Nat),
        opVerdict thr nf st.seen_keys row = .rejectKeyed k issues dq →
        (opStep thr nf st row).valid_records = st.valid_records ∧
        (opStep thr nf st row).issues = st.issues ++ issues ∧
        (opStep thr nf st row).dq_count = st.dq_count + dq) := by
  constructor
  · intro thr nf seen row raw k m ms iss a as_ hd hk hnotin hext hanom
    rw [opRowKey, hd] at hk
    rw [opVerdict, hd]
    dsimp only at hk ⊢
    by_cases hmiss : requiredMissing raw ["factory_code", "date"] ≠ []
    · rw [if_pos hmiss] at hk; cases hk
    · rw [if_neg hmiss] at hk ⊢
      cases hdate : (lookupRaw raw "date").bind parsePeriodJ with
      | none => (try rw [hdate] at hk); cases hk
      | some ym =>
          obtain ⟨year, month⟩ := ym
          try rw [hdate] at hk
          try rw [hdate]
          dsimp only at hk ⊢
          cases hnf : nf (lookupRaw raw "factory_code") with
          | none => (try rw [hnf] at hk); cases hk
          | some fc =>
              try rw [hnf] at hk
              try rw [hnf]
              dsimp only at hk ⊢
              by_cases hfc : fc = ""
              · rw [if_pos hfc] at hk; cases hk
              · rw [if_neg hfc] at hk ⊢
                injection hk with hk
                subst hk
                rw [if_neg hnotin]
                have h1 : (extractFixedMetrics raw row.row_number
                    opFields).1 = m :: ms := by rw [hext]
                have h2 : (extractFixedMetrics raw row.row_number
                    opFields).2 = iss := by rw [hext]
                rw [h1, h2, opGate, hanom]
  · intro thr nf st row k issues dq hv
    rw [opStep, hv]
    exact ⟨rfl, rfl, rfl⟩

/-- Witness for C7: the spec's anomaly example — revenue 2,000,000 under
the default threshold 1,000,000 yields exactly one `anomaly` issue, zero
accepted records, and one DQ count. -/
theorem C7_revenue_two_million_witness :
    opVerdict [] passThroughNorm [] anomalyRow =
      .rejectKeyed ("F1", 2024, 1)
        [anomalyIssue 1 ("revenue", 2000000, 1000000)] 1 ∧
    (opStep [] passThroughNorm ⟨[], [], [], 0⟩ anomalyRow).valid_records =
      [] := by
  have h := C7_anomalous_row_rejected_with_issue_per_exceedance.1 []
    passThroughNorm [] anomalyRow
    [("factory_code", .str "F1"), ("date", .str "2024-01-15"),
     ("revenue", .num 2000000)]
    ("F1", 2024, 1) ("revenue", 2000000) [] [] ("revenue", 2000000, 1000000)
    [] (by decide) (by decide) (by decide) (by decide) (by decide)
  refine ⟨by simpa using h, ?_⟩
  exact (C7_anomalous_row_rejected_with_issue_per_exceedance.2 []
    passThroughNorm ⟨[], [], [], 0⟩ anomalyRow ("F1", 2024, 1)
    [anomalyIssue 1 ("revenue", 2000000, 1000000)] 1
    (by simpa using h)).1

/-- C10: an operations row accepted through the generic `indicator`/`value`
fallback whose lower-cased indicator is none of the four fixed metric
fields is counted in the accepted total, yet its loaded fact record has all
four metric fields null — the named metric's value is silently dropped. -/
theorem C10_fallback_indicator_value_dropped :
    (∀ (thr : Ctx) (nf : Option JValue → Option String)
        (seen : List (String × Int × Int)) (row : StagingRow)
        (raw : RawData) (k : String × Int × Int) (iss : List Issue)
        (iv vv : JValue) (q : ℚ),
        row.data = some raw →
        opRowKey nf row = some k → k ∉ seen →
        extractFixedMetrics raw row.row_number opFields = ([], iss) →
        lookupRaw raw "indicator" = some iv → truthyJ iv = true →
        lookupRaw raw "value" = some vv → floatOfJ vv = some q →
        anomalousMetrics thr [(indicatorOf iv, q)] = [] →
        indicatorOf iv ∉ opFields →
        opVerdict thr nf seen row =
          .accept k ⟨k.1, k.2.1, k.2.2, none, none, none, none⟩ iss
            iss.length) ∧
    (∀ (thr : Ctx) (nf : Option JValue → Option String) (st : OpState)
        (row : StagingRow) (k : String × Int × Int) (rec : OpRecord)
        (issues : List Issue) (dq : Nat),
        opVerdict thr nf st.seen_keys row = .accept k rec issues dq →
        (opStep thr nf st row).valid_records = st.valid_records ++ [rec]) := by
  constructor
  · intro thr nf seen row raw k iss iv vv q hd hk hnotin hext hiv htruthy
      hvv hq hanom hnotfield
    rw [opRowKey, hd] at hk
    rw [opVerdict, hd]
    dsimp only at hk ⊢
    by_cases hmiss : requiredMissing raw ["factory_code", "date"] ≠ []
    · rw [if_pos hmiss] at hk; cases hk
    · rw [if_neg hmiss] at hk ⊢
      cases hdate : (lookupRaw raw "date").bind parsePeriodJ with
      | none => (try rw [hdate] at hk); cases hk
      | some ym =>
          obtain ⟨year, month⟩ := ym
          try rw [hdate] at hk
          try rw [hdate]
          dsimp only at hk ⊢
          cases hnf : nf (lookupRaw raw "factory_code") with
          | none => (try rw [hnf] at hk); cases hk
          | some fc =>
              try rw [hnf] at hk
              try rw [hnf]
              dsimp only at hk ⊢
              by_cases hfc : fc = ""
              · rw [if_pos hfc] at hk; cases hk
              · rw [if_neg hfc] at hk ⊢
                injection hk with hk
                subst hk
                rw [if_neg hnotin]
                have h1 : (extractFixedMetrics raw row.row_number
                    opFields).1 = [] := by rw [hext]
                have h2 : (extractFixedMetrics raw row.row_number
                    opFields).2 = iss := by rw [hext]
                rw [h1, h2]
                dsimp only
                rw [hiv, hvv]
                simp only [htruthy, Option.isSome_some, Bool.and_self,
                  if_true]
                rw [hq]
                dsimp only
                rw [opGate, hanom]
                have hrev : indicatorOf iv ≠ "revenue" := by
                  intro hc; exact hnotfield (by rw [hc]; decide)
                have hcost : indicatorOf iv ≠ "cost" := by
                  intro hc; exact hnotfield (by rw [hc]; decide)
                have hout : indicatorOf iv ≠ "output_qty" := by
                  intro hc; exact hnotfield (by rw [hc]; decide)
                have hdown : indicatorOf iv ≠ "downtime_hours" := by
                  intro hc; exact hnotfield (by rw [hc]; decide)
                simp [lookupCtx, hrev, hcost, hout, hdown]
  · intro thr nf st row k rec issues dq hv
    rw [opStep, hv]

/-- Witness for C10: a fallback row with indicator `Headcount` and value 25
is accepted with all four metric fields null. -/
theorem C10_headcount_witness :
    opVerdict [] passThroughNorm [] headcountRow =
      .accept ("F1", 2024, 1) ⟨"F1", 2024, 1, none, none, none, none⟩ [] 0 ∧
    (opStep [] passThroughNorm ⟨[], [], [], 0⟩ headcountRow).valid_records =
      [⟨"F1", 2024, 1, none, none, none, none⟩] := by
  have h := C10_fallback_indicator_value_dropped.1 [] passThroughNorm []
    headcountRow
    [("factory_code", .str "F1"), ("date", .str "2024-01-15"),
     ("indicator", .str "Headcount"), ("value", .num 25)]
    ("F1", 2024, 1) [] (.str "Headcount") (.num 25) 25
    (by decide) (by decide) (by decide) (by decide) (by decide) (by decide)
    (by decide) (by decide) (by decide) (by decide)
  refine ⟨by simpa using h, ?_⟩
  have h2 := C10_fallback_indicator_value_dropped.2 [] passThroughNorm
    ⟨[], [], [], 0⟩ headcountRow ("F1", 2024, 1)
    ⟨"F1", 2024, 1, none, none, none, none⟩ [] 0 (by simpa using h)
  simpa using h2


end DMS
